import Mathlib

/-!
Verification of the tacview-realtime-client ACMI parsing core.

This file is a shallow embedding, in Lean 4, of the pure parsing and
hashing functions of the tacview-realtime-client library: the
escape-aware comma tokenizer, the record / property / event / coordinate
decoders, the line assembler loop, the ACMI header parser, and the
password digest.  Rust strings are modelled as lists of Unicode
characters (all delimiters handled by the code are ASCII, so char-level
splitting coincides with byte-level splitting on well-formed UTF-8).
Rust u64 values are modelled as Nat with an explicit overflow bound of
2 ^ 64; f64 values are modelled exactly, as signed decimal
mantissa-exponent pairs (no claim below depends on binary rounding of
floats, only on which strings are accepted and on which fields are
populated).  Fallible Rust functions returning Result are modelled with
Except; a Rust panic is modelled by Option.none at the outermost level.
-/

set_option maxHeartbeats 1000000
set_option maxRecDepth 8192

namespace Tacview

/-- Splits a character list at every occurrence of the delimiter, like the
Rust str::split iterator: the result always has (number of delimiters) + 1
fields, and an empty input yields one empty field. -/
def splitOnChar (d : Char) : List Char → List (List Char)
  | [] => [[]]
  | c :: rest =>
    if c = d then [] :: splitOnChar d rest
    else
      match splitOnChar d rest with
      | [] => [[c]]
      | f :: fs => (c :: f) :: fs

/-- Splits at the first occurrence of the delimiter, like Rust
str::split_once: none when the delimiter does not occur. -/
def splitOnceChar (d : Char) : List Char → Option (List Char × List Char)
  | [] => none
  | c :: rest =>
    if c = d then some ([], rest)
    else (splitOnceChar d rest).map (fun p => (c :: p.1, p.2))

/-- Removes the given leading pattern, like Rust str::strip_prefix: some
remainder when the pattern is a prefix, none otherwise. -/
def stripPre? : List Char → List Char → Option (List Char)
  | [], s => some s
  | _ :: _, [] => none
  | p :: ps, c :: cs => if p = c then stripPre? ps cs else none

/-- Tests for a leading pattern, like Rust str::starts_with. -/
def startsWith (p s : List Char) : Bool :=
  (stripPre? p s).isSome

/-- Removes one trailing occurrence of the character, like Rust
str::strip_suffix with a char pattern. -/
def stripSuffixChar? (d : Char) (s : List Char) : Option (List Char) :=
  if s.getLast? = some d then some s.dropLast else none

theorem splitOnChar_ne_nil (d : Char) (l : List Char) : splitOnChar d l ≠ [] := by
  cases l with
  | nil => simp [splitOnChar]
  | cons c rest =>
    simp only [splitOnChar]
    split
    · simp
    · split <;> simp

theorem splitOnChar_cons_ne (d c : Char) (l : List Char) (h : c ≠ d) :
    ∃ f fs, splitOnChar d l = f :: fs ∧ splitOnChar d (c :: l) = (c :: f) :: fs := by
  cases hs : splitOnChar d l with
  | nil => exact absurd hs (splitOnChar_ne_nil d l)
  | cons f fs =>
    refine ⟨f, fs, rfl, ?_⟩
    simp only [splitOnChar, if_neg h, hs]

theorem splitOnChar_no_delim (d : Char) (l : List Char) (h : d ∉ l) :
    splitOnChar d l = [l] := by
  induction l with
  | nil => rfl
  | cons c rest ih =>
    have hc : c ≠ d := fun hcd => h (hcd ▸ List.mem_cons_self c rest)
    have hrest : d ∉ rest := fun hm => h (List.mem_cons_of_mem c hm)
    simp only [splitOnChar, if_neg hc, ih hrest]

theorem splitOnChar_append_delim (d : Char) (pre rest : List Char) (h : d ∉ pre) :
    splitOnChar d (pre ++ d :: rest) = pre :: splitOnChar d rest := by
  induction pre with
  | nil => simp [splitOnChar]
  | cons c p ih =>
    have hc : c ≠ d := fun hcd => h (hcd ▸ List.mem_cons_self c p)
    have hp : d ∉ p := fun hm => h (List.mem_cons_of_mem c hm)
    obtain ⟨f, fs, hfs, hcons⟩ := splitOnChar_cons_ne d c (p ++ d :: rest) hc
    rw [List.cons_append, hcons]
    rw [ih hp] at hfs
    injection hfs with h1 h2
    rw [h1, h2]

theorem splitOnceChar_eq_some (d : Char) (s k v : List Char) :
    splitOnceChar d s = some (k, v) → s = k ++ d :: v ∧ d ∉ k := by
  induction s generalizing k with
  | nil => intro h; exact Option.noConfusion h
  | cons c rest ih =>
    intro h
    simp only [splitOnceChar] at h
    by_cases hc : c = d
    · rw [if_pos hc] at h
      simp only [Option.some.injEq, Prod.mk.injEq] at h
      obtain ⟨h1, h2⟩ := h
      subst h1; subst h2; subst hc
      exact ⟨rfl, fun hm => List.not_mem_nil _ hm⟩
    · rw [if_neg hc] at h
      cases hrec : splitOnceChar d rest with
      | none => rw [hrec] at h; exact Option.noConfusion h
      | some p =>
        obtain ⟨k', v'⟩ := p
        rw [hrec] at h
        simp only [Option.map_some', Option.some.injEq, Prod.mk.injEq] at h
        obtain ⟨h1, h2⟩ := h
        subst h2
        obtain ⟨hs, hd⟩ := ih k' hrec
        subst hs
        constructor
        · rw [← h1]; rfl
        · intro hm
          rw [← h1] at hm
          rcases List.mem_cons.mp hm with h0 | hmem
          · exact hc h0.symm
          · exact hd hmem

theorem splitOnceChar_append (d : Char) (k v : List Char) (h : d ∉ k) :
    splitOnceChar d (k ++ d :: v) = some (k, v) := by
  induction k with
  | nil => simp [splitOnceChar]
  | cons c p ih =>
    have hc : c ≠ d := fun hcd => h (hcd ▸ List.mem_cons_self c p)
    have hp : d ∉ p := fun hm => h (List.mem_cons_of_mem c hm)
    rw [List.cons_append]
    simp only [splitOnceChar, if_neg hc]
    rw [ih hp]
    rfl

theorem stripPre?_eq_some (p s r : List Char) : stripPre? p s = some r ↔ s = p ++ r := by
  induction p generalizing s with
  | nil =>
    simp [stripPre?, eq_comm]
  | cons c ps ih =>
    cases s with
    | nil =>
      simp only [stripPre?, List.cons_append]
      constructor
      · intro h; cases h
      · intro h; cases h
    | cons a rest =>
      simp only [stripPre?, List.cons_append, List.cons.injEq]
      by_cases hca : c = a
      · rw [if_pos hca, ih]
        exact ⟨fun h => ⟨hca.symm, h⟩, fun h => h.2⟩
      · rw [if_neg hca]
        constructor
        · intro h; cases h
        · intro h; exact absurd h.1.symm hca

end Tacview

namespace Tacview

/-- Exact model of an f64 value produced by the Rust decimal float parser:
not-a-number, signed infinity, or a signed decimal significand with a power
of ten.  No claim in this development depends on binary rounding, so the
decimal value is kept exact. -/
inductive FloatVal where
  | nan : FloatVal
  | inf : Bool → FloatVal
  | finite (neg : Bool) (mantissa : Nat) (exp10 : Int) : FloatVal
deriving DecidableEq, Repr

/-- Numeric value of a decimal digit character. -/
def digitVal (c : Char) : Nat := c.toNat - 48

/-- Value of a string of decimal digits, most significant first. -/
def natOfDigits (ds : List Char) : Nat :=
  ds.foldl (fun a c => a * 10 + digitVal c) 0

/-- ASCII-case-insensitive comparison against a lowercase literal, like
Rust eq_ignore_ascii_case. -/
def lowerEq (s t : List Char) : Bool :=
  s.map Char.toLower == t

/-- Model of Rust f64::from_str: optional sign, then a case-insensitive
inf / infinity / nan literal or a decimal significand (digits with an
optional point, or a point followed by digits) with an optional exponent
part that must contain at least one digit; nothing may remain. -/
def parseF64 (s : List Char) : Option FloatVal :=
  let signed : Bool × List Char :=
    match s with
    | '+' :: r => (false, r)
    | '-' :: r => (true, r)
    | r => (false, r)
  let neg := signed.1
  let rest := signed.2
  if lowerEq rest ("inf".toList) || lowerEq rest ("infinity".toList) then
    some (.inf neg)
  else if lowerEq rest ("nan".toList) then
    some .nan
  else
    let d1 := rest.takeWhile Char.isDigit
    let r1 := rest.dropWhile Char.isDigit
    let frac : List Char × List Char :=
      match r1 with
      | '.' :: t => (t.takeWhile Char.isDigit, t.dropWhile Char.isDigit)
      | _ => ([], r1)
    let d2 := frac.1
    let r2 := frac.2
    if d1 = [] ∧ d2 = [] then none
    else
      match r2 with
      | [] => some (.finite neg (natOfDigits (d1 ++ d2)) (-(d2.length : Int)))
      | e :: r3 =>
        if e = 'e' ∨ e = 'E' then
          let esigned : Bool × List Char :=
            match r3 with
            | '+' :: t => (false, t)
            | '-' :: t => (true, t)
            | t => (false, t)
          let d3 := esigned.2.takeWhile Char.isDigit
          let r5 := esigned.2.dropWhile Char.isDigit
          if d3 = [] ∨ r5 ≠ [] then none
          else
            let ev : Int := if esigned.1 then -(natOfDigits d3 : Int) else (natOfDigits d3 : Int)
            some (.finite neg (natOfDigits (d1 ++ d2)) (ev - (d2.length : Int)))
        else none

/-- The library error type (payload-free where the payload is an opaque
foreign error value). -/
inductive Error where
  | tcpConnect
  | tcpRead
  | tcpWrite
  | tcpHeaderProtocol (found : List Char)
  | tcpHeaderVersion (found : List Char)
  | tcpEndOfHeader (byte : Nat)
  | acmiReaderRead
  | badAcmiFileType (found : List Char)
  | badAcmiFileVersion (found : List Char)
  | acmiReaderEol
  | parseInt
  | parseDateTime
  | parseFloat
  | malformedEvent (found : List Char)
  | malformedGlobalProperty (found : List Char)
  | malformedObjectProperty (found : List Char)
  | malformedCoords (found : List Char)
deriving DecidableEq, Repr

/-- Value of one hexadecimal digit, like Rust char::to_digit(16): the
decimal digits map to 0 through 9, letters of either case to 10 through
15. -/
def hexVal? (c : Char) : Option Nat :=
  if 48 ≤ c.toNat ∧ c.toNat ≤ 57 then some (c.toNat - 48)
  else if 97 ≤ c.toNat ∧ c.toNat ≤ 102 then some (c.toNat - 87)
  else if 65 ≤ c.toNat ∧ c.toNat ≤ 70 then some (c.toNat - 55)
  else none

/-- One step of hexadecimal digit accumulation; none is sticky and records
an invalid digit. -/
def hexAcc (a : Option Nat) (c : Char) : Option Nat :=
  match a with
  | none => none
  | some v =>
    match hexVal? c with
    | none => none
    | some d => some (v * 16 + d)

/-- The digit loop of u64::from_str_radix for base sixteen: at least one
digit, every digit valid, and the accumulated value below 2 ^ 64 (Rust
reports an overflow as a ParseIntError just like an invalid digit, and
checked per-step overflow fails exactly when the full value is out of
range, since the accumulator grows monotonically). -/
def hexValue (digits : List Char) : Except Error Nat :=
  match digits with
  | [] => .error .parseInt
  | _ :: _ =>
    match digits.foldl hexAcc (some 0) with
    | none => .error .parseInt
    | some v => if v < 2 ^ 64 then .ok v else .error .parseInt

/-- Model of u64::from_str_radix(id, 16) followed by map_err(Error::ParseInt)
as used for object ids: an optional leading plus sign, then at least one
hexadecimal digit fitting in 64 bits. -/
def parse_object_id (s : List Char) : Except Error Nat :=
  match s with
  | [] => .error .parseInt
  | c :: rest => hexValue (if c = '+' then rest else c :: rest)

/-- Value of one decimal digit, like Rust char::to_digit(10). -/
def decVal? (c : Char) : Option Nat :=
  if 48 ≤ c.toNat ∧ c.toNat ≤ 57 then some (c.toNat - 48) else none

/-- One step of decimal digit accumulation; none is sticky. -/
def decAcc (a : Option Nat) (c : Char) : Option Nat :=
  match a with
  | none => none
  | some v =>
    match decVal? c with
    | none => none
    | some d => some (v * 10 + d)

/-- The digit loop of u64::from_str for base ten; see hexValue. -/
def decValue (digits : List Char) : Except Error Nat :=
  match digits with
  | [] => .error .parseInt
  | _ :: _ =>
    match digits.foldl decAcc (some 0) with
    | none => .error .parseInt
    | some v => if v < 2 ^ 64 then .ok v else .error .parseInt

/-- Model of u64::from_str followed by map_err(Error::ParseInt): an optional
leading plus sign, then at least one decimal digit, fitting in 64 bits. -/
def parseU64 (s : List Char) : Except Error Nat :=
  match s with
  | [] => .error .parseInt
  | c :: rest => decValue (if c = '+' then rest else c :: rest)

/-- Model of f64::from_str(value).map_err(Error::ParseFloat). -/
def parseF64E (s : List Char) : Except Error FloatVal :=
  match parseF64 s with
  | none => .error .parseFloat
  | some v => .ok v

end Tacview

namespace Tacview

/-- Object type tags (closed set with an Other fallthrough). -/
inductive Tag where
  | air | ground | sea | weapon | sensor | navaid | misc
  | static | heavy | medium | light | minor
  | fixedWing | rotorcraft | armor | antiAircraft | vehicle | watercraft
  | human | biologic | missile | rocket | bomb | torpedo | projectile
  | beam | decoy | building | bullseye | waypoint
  | tank | warship | aircraftCarrier | submarine | infantry | parachutist
  | shell | bullet | grenade | flare | chaff | smokeGrenade | aerodrome
  | container | shrapnel | explosion
  | other (raw : List Char)
deriving DecidableEq, Repr

/-- Model of Tag::from_str: a closed-set match that never fails. -/
def Tag.from_str (s : List Char) : Except Error Tag :=
  if s = ("Air".toList) then .ok .air
  else if s = ("Ground".toList) then .ok .ground
  else if s = ("Sea".toList) then .ok .sea
  else if s = ("Weapon".toList) then .ok .weapon
  else if s = ("Sensor".toList) then .ok .sensor
  else if s = ("Navaid".toList) then .ok .navaid
  else if s = ("Misc".toList) then .ok .misc
  else if s = ("Static".toList) then .ok .static
  else if s = ("Heavy".toList) then .ok .heavy
  else if s = ("Medium".toList) then .ok .medium
  else if s = ("Light".toList) then .ok .light
  else if s = ("Minor".toList) then .ok .minor
  else if s = ("FixedWing".toList) then .ok .fixedWing
  else if s = ("Rotorcraft".toList) then .ok .rotorcraft
  else if s = ("Armor".toList) then .ok .armor
  else if s = ("AntiAircraft".toList) then .ok .antiAircraft
  else if s = ("Vehicle".toList) then .ok .vehicle
  else if s = ("Watercraft".toList) then .ok .watercraft
  else if s = ("Human".toList) then .ok .human
  else if s = ("Biologic".toList) then .ok .biologic
  else if s = ("Missile".toList) then .ok .missile
  else if s = ("Rocket".toList) then .ok .rocket
  else if s = ("Bomb".toList) then .ok .bomb
  else if s = ("Torpedo".toList) then .ok .torpedo
  else if s = ("Projectile".toList) then .ok .projectile
  else if s = ("Beam".toList) then .ok .beam
  else if s = ("Decoy".toList) then .ok .decoy
  else if s = ("Building".toList) then .ok .building
  else if s = ("Bullseye".toList) then .ok .bullseye
  else if s = ("Waypoint".toList) then .ok .waypoint
  else if s = ("Tank".toList) then .ok .tank
  else if s = ("Warship".toList) then .ok .warship
  else if s = ("AircraftCarrier".toList) then .ok .aircraftCarrier
  else if s = ("Submarine".toList) then .ok .submarine
  else if s = ("Infantry".toList) then .ok .infantry
  else if s = ("Parachutist".toList) then .ok .parachutist
  else if s = ("Shell".toList) then .ok .shell
  else if s = ("Bullet".toList) then .ok .bullet
  else if s = ("Grenade".toList) then .ok .grenade
  else if s = ("Flare".toList) then .ok .flare
  else if s = ("Chaff".toList) then .ok .chaff
  else if s = ("SmokeGrenade".toList) then .ok .smokeGrenade
  else if s = ("Aerodrome".toList) then .ok .aerodrome
  else if s = ("Container".toList) then .ok .container
  else if s = ("Shrapnel".toList) then .ok .shrapnel
  else if s = ("Explosion".toList) then .ok .explosion
  else .ok (.other s)

/-- Object colors (closed set with an Other fallthrough). -/
inductive Color where
  | red | orange | yellow | green | cyan | blue | violet
  | other (raw : List Char)
deriving DecidableEq, Repr

/-- Model of Color::from_str: a closed-set match that never fails. -/
def Color.from_str (s : List Char) : Except Error Color :=
  if s = ("Red".toList) then .ok .red
  else if s = ("Orange".toList) then .ok .orange
  else if s = ("Yellow".toList) then .ok .yellow
  else if s = ("Green".toList) then .ok .green
  else if s = ("Cyan".toList) then .ok .cyan
  else if s = ("Blue".toList) then .ok .blue
  else if s = ("Violet".toList) then .ok .violet
  else .ok (.other s)

/-- The coordinate record: nine optional reals. -/
@[ext]
structure Coords where
  longitude : Option FloatVal := none
  latitude : Option FloatVal := none
  altitude : Option FloatVal := none
  roll : Option FloatVal := none
  pitch : Option FloatVal := none
  yaw : Option FloatVal := none
  u : Option FloatVal := none
  v : Option FloatVal := none
  heading : Option FloatVal := none
deriving DecidableEq, Repr

/-- The all-absent coordinate value, as produced by the derived Default. -/
def Coords.default : Coords := {}

/-- Model of Coords::update: each source field overwrites the target field
when present and leaves it unchanged when absent (the Rust original is a
sequence of nine independent per-field if-let assignments). -/
def Coords.update (self other : Coords) : Coords where
  longitude := match other.longitude with | some x => some x | none => self.longitude
  latitude := match other.latitude with | some x => some x | none => self.latitude
  altitude := match other.altitude with | some x => some x | none => self.altitude
  roll := match other.roll with | some x => some x | none => self.roll
  pitch := match other.pitch with | some x => some x | none => self.pitch
  yaw := match other.yaw with | some x => some x | none => self.yaw
  u := match other.u with | some x => some x | none => self.u
  v := match other.v with | some x => some x | none => self.v
  heading := match other.heading with | some x => some x | none => self.heading

/-- One coordinate field: empty means absent, anything else must parse as a
float (Rust maps the error with Error::ParseFloat). -/
def parseCoordField (t : List Char) : Except Error (Option FloatVal) :=
  if t = [] then .ok none
  else
    match parseF64 t with
    | none => .error .parseFloat
    | some x => .ok (some x)

/-- Model of Coords::from_str: the value is split on the pipe character
(plain split, no escape handling); the first three fields are mandatory,
then the iterator is consumed exactly as in the source: a fourth field
requires a fifth, a sixth may follow, a seventh requires an eighth and a
ninth; field order of evaluation (parse errors before missing-token
errors) matches the source. -/
def Coords.from_str (s : List Char) : Except Error Coords :=
  match splitOnChar '|' s with
  | [] => .error (.malformedCoords s)
  | t1 :: r1 =>
    match parseCoordField t1 with
    | .error e => .error e
    | .ok longitude =>
      match r1 with
      | [] => .error (.malformedCoords s)
      | t2 :: r2 =>
        match parseCoordField t2 with
        | .error e => .error e
        | .ok latitude =>
          match r2 with
          | [] => .error (.malformedCoords s)
          | t3 :: r3 =>
            match parseCoordField t3 with
            | .error e => .error e
            | .ok altitude =>
              match r3 with
              | [] =>
                .ok { longitude, latitude, altitude }
              | t4 :: r4 =>
                match parseCoordField t4 with
                | .error e => .error e
                | .ok v4 =>
                  match r4 with
                  | [] => .error (.malformedCoords s)
                  | t5 :: r5 =>
                    match parseCoordField t5 with
                    | .error e => .error e
                    | .ok v5 =>
                      match r5 with
                      | [] =>
                        .ok { longitude, latitude, altitude, u := v4, v := v5 }
                      | t6 :: r6 =>
                        match parseCoordField t6 with
                        | .error e => .error e
                        | .ok v6 =>
                          match r6 with
                          | [] =>
                            .ok { longitude, latitude, altitude,
                                  roll := v4, pitch := v5, yaw := v6 }
                          | t7 :: r7 =>
                            match parseCoordField t7 with
                            | .error e => .error e
                            | .ok v7 =>
                              match r7 with
                              | [] => .error (.malformedCoords s)
                              | t8 :: r8 =>
                                match parseCoordField t8 with
                                | .error e => .error e
                                | .ok v8 =>
                                  match r8 with
                                  | [] => .error (.malformedCoords s)
                                  | t9 :: _ =>
                                    match parseCoordField t9 with
                                    | .error e => .error e
                                    | .ok v9 =>
                                      .ok { longitude, latitude, altitude,
                                            roll := v4, pitch := v5, yaw := v6,
                                            u := v7, v := v8, heading := v9 }

end Tacview

namespace Tacview

/-- An absolute timestamp with UTC offset, the decoded form of an RFC 3339
datetime.  This models the OffsetDateTime value of the external time crate;
only its parsed components matter to this library. -/
structure DateTimeVal where
  year : Nat
  month : Nat
  day : Nat
  hour : Nat
  minute : Nat
  second : Nat
  nano : List Char
  offsetMinutes : Int
deriving DecidableEq, Repr

/-- Two decimal digit characters to a number. -/
def digits2? (a b : Char) : Option Nat :=
  if a.isDigit ∧ b.isDigit then some (digitVal a * 10 + digitVal b) else none

/-- Decodes the trailing UTC-offset designator of an RFC 3339 timestamp:
Z (either case) or a signed hh:mm offset; helper for parseRfc3339. -/
def rfc3339Offset (tail : List Char) : Except Error Int :=
  match tail with
  | ['Z'] => .ok 0
  | ['z'] => .ok 0
  | [sg, o1, o2, ':', o3, o4] =>
    match digits2? o1 o2, digits2? o3 o4 with
    | some oh, some om =>
      if (sg = '+' ∨ sg = '-') ∧ oh ≤ 23 ∧ om ≤ 59 then
        let mins : Int := (oh * 60 + om : Nat)
        .ok (if sg = '-' then -mins else mins)
      else .error .parseDateTime
    | _, _ => .error .parseDateTime
  | _ => .error .parseDateTime

/-- Model of the external time crate collaborator
OffsetDateTime::parse(value, Rfc3339) followed by
map_err(Error::ParseDateTime): a YYYY-MM-DDThh:mm:ss core, an optional
fractional-second part, and a Z or signed hh:mm offset.  The claims below
never depend on this decoder; it is included so the two datetime branches
of the global-property dispatch are complete. -/
def parseRfc3339 (s : List Char) : Except Error DateTimeVal :=
  match s with
  | y1 :: y2 :: y3 :: y4 :: '-' :: m1 :: m2 :: '-' :: d1 :: d2 :: t
      :: h1 :: h2 :: ':' :: mi1 :: mi2 :: ':' :: s1 :: s2 :: rest =>
    if (y1.isDigit ∧ y2.isDigit ∧ y3.isDigit ∧ y4.isDigit) ∧ (t = 'T' ∨ t = 't') then
      match digits2? m1 m2, digits2? d1 d2, digits2? h1 h2, digits2? mi1 mi2, digits2? s1 s2 with
      | some mo, some da, some ho, some mi, some se =>
        if 1 ≤ mo ∧ mo ≤ 12 ∧ 1 ≤ da ∧ da ≤ 31 ∧ ho ≤ 23 ∧ mi ≤ 59 ∧ se ≤ 60 then
          let year := natOfDigits [y1, y2, y3, y4]
          match rest with
          | '.' :: fr =>
            let frac := fr.takeWhile Char.isDigit
            let tail := fr.dropWhile Char.isDigit
            if frac = [] then .error .parseDateTime
            else (rfc3339Offset tail).map fun off => ⟨year, mo, da, ho, mi, se, frac, off⟩
          | _ =>
            (rfc3339Offset rest).map fun off => ⟨year, mo, da, ho, mi, se, [], off⟩
        else .error .parseDateTime
      | _, _, _, _, _ => .error .parseDateTime
    else .error .parseDateTime
  | _ => .error .parseDateTime

/-- Mission-global properties. -/
inductive GlobalProperty where
  | dataSource (v : List Char)
  | dataRecorder (v : List Char)
  | referenceTime (v : DateTimeVal)
  | recordingTime (v : DateTimeVal)
  | author (v : List Char)
  | title (v : List Char)
  | category (v : List Char)
  | briefing (v : List Char)
  | debriefing (v : List Char)
  | comments (v : List Char)
  | referenceLongitude (v : FloatVal)
  | referenceLatitude (v : FloatVal)
  | unknown (name value : List Char)
deriving DecidableEq, Repr

/-- Generic sequential Key= dispatch: tries each (key, decoder) pair in
order, invoking the decoder on the text after the first matching Key=
prefix, and falls through otherwise.  This is the Rust if-let chain of
strip_prefix tests, represented as a fold over the ordered branch table. -/
def dispatchKeyEq (branches : List (List Char × (List Char → Except Error A)))
    (fallthrough : List Char → Except Error A) (s : List Char) : Except Error A :=
  match branches with
  | [] => fallthrough s
  | (key, dec) :: rest =>
    match stripPre? (key ++ ['=']) s with
    | some value => dec value
    | none => dispatchKeyEq rest fallthrough s

/-- The ordered branch table of GlobalProperty::from_str, branch for branch
in source order. -/
def GlobalProperty.branches : List (List Char × (List Char → Except Error GlobalProperty)) :=
  [(("DataSource".toList), fun value => .ok (.dataSource value)),
   (("DataRecorder".toList), fun value => .ok (.dataRecorder value)),
   (("ReferenceTime".toList), fun value => (parseRfc3339 value).map .referenceTime),
   (("RecordingTime".toList), fun value => (parseRfc3339 value).map .recordingTime),
   (("Author".toList), fun value => .ok (.author value)),
   (("Title".toList), fun value => .ok (.title value)),
   (("Category".toList), fun value => .ok (.category value)),
   (("Briefing".toList), fun value => .ok (.briefing value)),
   (("Debriefing".toList), fun value => .ok (.debriefing value)),
   (("Comments".toList), fun value => .ok (.comments value)),
   (("ReferenceLongitude".toList), fun value => (parseF64E value).map .referenceLongitude),
   (("ReferenceLatitude".toList), fun value => (parseF64E value).map .referenceLatitude)]

/-- Model of GlobalProperty::from_str: the sequential Key= prefix dispatch
of the source; an unmatched key falls through to a split at the first
equals sign, yielding unknown(name, value), or the malformed error when no
equals sign occurs. -/
def GlobalProperty.from_str (s : List Char) : Except Error GlobalProperty :=
  dispatchKeyEq GlobalProperty.branches
    (fun s =>
      match splitOnceChar '=' s with
      | none => .error (.malformedGlobalProperty s)
      | some p => .ok (.unknown p.1 p.2)) s

/-- The keys recognized by the global-property dispatch, in source order. -/
def globalKnownKeys : List (List Char) :=
  GlobalProperty.branches.map Prod.fst

end Tacview

namespace Tacview

/-- Per-object properties; the constructor list mirrors the Rust enum in
declaration order, including LockedTargetAzimuth, for which the dispatch
has no branch (the set of type tags is modelled as the list of parsed
tags). -/
inductive ObjectProperty where
  | t (v : Coords)
  | name (v : List Char)
  | type (v : List Tag)
  | parent (v : Nat)
  | next (v : Nat)
  | callsign (v : List Char)
  | registration (v : List Char)
  | squawk (v : List Char)
  | icao24 (v : List Char)
  | pilot (v : List Char)
  | group (v : List Char)
  | country (v : List Char)
  | coalition (v : List Char)
  | color (v : Color)
  | shape (v : List Char)
  | debug (v : List Char)
  | label (v : List Char)
  | focusedTarget (v : Nat)
  | lockedTarget (v : Nat)
  | lockedTarget2 (v : Nat)
  | lockedTarget3 (v : Nat)
  | lockedTarget4 (v : Nat)
  | lockedTarget5 (v : Nat)
  | lockedTarget6 (v : Nat)
  | lockedTarget7 (v : Nat)
  | lockedTarget8 (v : Nat)
  | lockedTarget9 (v : Nat)
  | importance (v : Nat)
  | slot (v : Nat)
  | disabled (v : Bool)
  | visible (v : FloatVal)
  | health (v : FloatVal)
  | length (v : FloatVal)
  | width (v : FloatVal)
  | radius (v : FloatVal)
  | ias (v : FloatVal)
  | cas (v : FloatVal)
  | tas (v : FloatVal)
  | mach (v : FloatVal)
  | aoa (v : FloatVal)
  | aos (v : FloatVal)
  | agl (v : FloatVal)
  | hdg (v : FloatVal)
  | hdm (v : FloatVal)
  | throttle (v : FloatVal)
  | afterburner (v : FloatVal)
  | airBrakes (v : FloatVal)
  | flaps (v : FloatVal)
  | landingGear (v : FloatVal)
  | landingGearHandle (v : FloatVal)
  | tailhook (v : FloatVal)
  | parachute (v : FloatVal)
  | dragChute (v : FloatVal)
  | fuelWeight (v : FloatVal)
  | fuelWeight2 (v : FloatVal)
  | fuelWeight3 (v : FloatVal)
  | fuelWeight4 (v : FloatVal)
  | fuelWeight5 (v : FloatVal)
  | fuelWeight6 (v : FloatVal)
  | fuelWeight7 (v : FloatVal)
  | fuelWeight8 (v : FloatVal)
  | fuelWeight9 (v : FloatVal)
  | fuelVolume (v : FloatVal)
  | fuelVolume2 (v : FloatVal)
  | fuelVolume3 (v : FloatVal)
  | fuelVolume4 (v : FloatVal)
  | fuelVolume5 (v : FloatVal)
  | fuelVolume6 (v : FloatVal)
  | fuelVolume7 (v : FloatVal)
  | fuelVolume8 (v : FloatVal)
  | fuelVolume9 (v : FloatVal)
  | fuelFlowWeight (v : FloatVal)
  | fuelFlowWeight2 (v : FloatVal)
  | fuelFlowWeight3 (v : FloatVal)
  | fuelFlowWeight4 (v : FloatVal)
  | fuelFlowWeight5 (v : FloatVal)
  | fuelFlowWeight6 (v : FloatVal)
  | fuelFlowWeight7 (v : FloatVal)
  | fuelFlowVolume (v : FloatVal)
  | fuelFlowVolume2 (v : FloatVal)
  | fuelFlowVolume3 (v : FloatVal)
  | fuelFlowVolume4 (v : FloatVal)
  | fuelFlowVolume5 (v : FloatVal)
  | fuelFlowVolume6 (v : FloatVal)
  | fuelFlowVolume7 (v : FloatVal)
  | radarMode (v : Nat)
  | radarAzimuth (v : FloatVal)
  | radarElevation (v : FloatVal)
  | radarRoll (v : FloatVal)
  | radarRange (v : FloatVal)
  | radarHorizontalBeamwidth (v : FloatVal)
  | radarVerticalBeamwidth (v : FloatVal)
  | radarRangeGateAzimuth (v : FloatVal)
  | radarRangeGateElevation (v : FloatVal)
  | radarRangeGateRoll (v : FloatVal)
  | radarRangeGateMin (v : FloatVal)
  | radarRangeGateMax (v : FloatVal)
  | radarRangeGateHorizontalBeamwidth (v : FloatVal)
  | radarRangeGateVerticalBeamwidth (v : FloatVal)
  | lockedTargetMode (v : Nat)
  | lockedTargetAzimuth (v : FloatVal)
  | lockedTargetElevation (v : FloatVal)
  | lockedTargetRange (v : FloatVal)
  | engagementMode (v : Nat)
  | engagementMode2 (v : Nat)
  | engagementRange (v : FloatVal)
  | engagementRange2 (v : FloatVal)
  | verticalEngagementRange (v : FloatVal)
  | verticalEngagementRange2 (v : FloatVal)
  | rollControlInput (v : FloatVal)
  | pitchControlInput (v : FloatVal)
  | yawControlInput (v : FloatVal)
  | rollControlPosition (v : FloatVal)
  | pitchControlPosition (v : FloatVal)
  | yawControlPosition (v : FloatVal)
  | rollTrimTab (v : FloatVal)
  | pitchTrimTab (v : FloatVal)
  | yawTrimTab (v : FloatVal)
  | aileronLeft (v : FloatVal)
  | aileronRight (v : FloatVal)
  | elevator (v : FloatVal)
  | rudder (v : FloatVal)
  | pilotHeadRoll (v : FloatVal)
  | pilotHeadPitch (v : FloatVal)
  | pilotHeadYaw (v : FloatVal)
  | verticalGForce (v : FloatVal)
  | longitudinalGForce (v : FloatVal)
  | lateralGForce (v : FloatVal)
  | triggerPressed (v : Bool)
  | enl (v : FloatVal)
  | heartRate (v : Nat)
  | spO2 (v : FloatVal)
  | unknown (name value : List Char)

/-- Shorthand for one branch table segment. -/
abbrev ObjPropBranches :=
  List (List Char × (List Char → Except Error ObjectProperty))

/-- Branch table of ObjectProperty::from_str, segment 1 of 11, in
source order. -/
def ObjectProperty.branches1 : ObjPropBranches :=
  [(("T".toList), fun value => (Coords.from_str value).map ObjectProperty.t),
   (("Name".toList), fun value => .ok (.name value)),
   (("Type".toList), fun value => ((splitOnChar '+' value).mapM Tag.from_str).map ObjectProperty.type),
   (("Parent".toList), fun value => (parse_object_id value).map ObjectProperty.parent),
   (("Next".toList), fun value => (parse_object_id value).map ObjectProperty.next),
   (("Callsign".toList), fun value => .ok (.callsign value)),
   (("Registration".toList), fun value => .ok (.registration value)),
   (("Squawk".toList), fun value => .ok (.squawk value)),
   (("ICAO24".toList), fun value => .ok (.icao24 value)),
   (("Pilot".toList), fun value => .ok (.pilot value)),
   (("Group".toList), fun value => .ok (.group value)),
   (("Country".toList), fun value => .ok (.country value))]

/-- Branch table of ObjectProperty::from_str, segment 2 of 11, in
source order. -/
def ObjectProperty.branches2 : ObjPropBranches :=
  [(("Coalition".toList), fun value => .ok (.coalition value)),
   (("Color".toList), fun value => (Color.from_str value).map ObjectProperty.color),
   (("Shape".toList), fun value => .ok (.shape value)),
   (("Debug".toList), fun value => .ok (.debug value)),
   (("Label".toList), fun value => .ok (.label value)),
   (("FocusedTarget".toList), fun value => (parse_object_id value).map ObjectProperty.focusedTarget),
   (("LockedTarget".toList), fun value => (parse_object_id value).map ObjectProperty.lockedTarget),
   (("LockedTarget2".toList), fun value => (parse_object_id value).map ObjectProperty.lockedTarget2),
   (("LockedTarget3".toList), fun value => (parse_object_id value).map ObjectProperty.lockedTarget3),
   (("LockedTarget4".toList), fun value => (parse_object_id value).map ObjectProperty.lockedTarget4),
   (("LockedTarget5".toList), fun value => (parse_object_id value).map ObjectProperty.lockedTarget5),
   (("LockedTarget6".toList), fun value => (parse_object_id value).map ObjectProperty.lockedTarget6)]

/-- Branch table of ObjectProperty::from_str, segment 3 of 11, in
source order. -/
def ObjectProperty.branches3 : ObjPropBranches :=
  [(("LockedTarget7".toList), fun value => (parse_object_id value).map ObjectProperty.lockedTarget7),
   (("LockedTarget8".toList), fun value => (parse_object_id value).map ObjectProperty.lockedTarget8),
   (("LockedTarget9".toList), fun value => (parse_object_id value).map ObjectProperty.lockedTarget9),
   (("Importance".toList), fun value => (parseU64 value).map ObjectProperty.importance),
   (("Slot".toList), fun value => (parseU64 value).map ObjectProperty.slot),
   (("Disabled".toList), fun value => .ok (.disabled (value == ("1".toList)))),
   (("Visible".toList), fun value => (parseF64E value).map ObjectProperty.visible),
   (("Health".toList), fun value => (parseF64E value).map ObjectProperty.health),
   (("Length".toList), fun value => (parseF64E value).map ObjectProperty.length),
   (("Width".toList), fun value => (parseF64E value).map ObjectProperty.width),
   (("Radius".toList), fun value => (parseF64E value).map ObjectProperty.radius),
   (("IAS".toList), fun value => (parseF64E value).map ObjectProperty.ias)]

/-- Branch table of ObjectProperty::from_str, segment 4 of 11, in
source order. -/
def ObjectProperty.branches4 : ObjPropBranches :=
  [(("CAS".toList), fun value => (parseF64E value).map ObjectProperty.cas),
   (("TAS".toList), fun value => (parseF64E value).map ObjectProperty.tas),
   (("Mach".toList), fun value => (parseF64E value).map ObjectProperty.mach),
   (("AOA".toList), fun value => (parseF64E value).map ObjectProperty.aoa),
   (("AOS".toList), fun value => (parseF64E value).map ObjectProperty.aos),
   (("AGL".toList), fun value => (parseF64E value).map ObjectProperty.agl),
   (("HDG".toList), fun value => (parseF64E value).map ObjectProperty.hdg),
   (("HDM".toList), fun value => (parseF64E value).map ObjectProperty.hdm),
   (("Throttle".toList), fun value => (parseF64E value).map ObjectProperty.throttle),
   (("Afterburner".toList), fun value => (parseF64E value).map ObjectProperty.afterburner),
   (("AirBrakes".toList), fun value => (parseF64E value).map ObjectProperty.airBrakes),
   (("Flaps".toList), fun value => (parseF64E value).map ObjectProperty.flaps)]

/-- Branch table of ObjectProperty::from_str, segment 5 of 11, in
source order. -/
def ObjectProperty.branches5 : ObjPropBranches :=
  [(("LandingGear".toList), fun value => (parseF64E value).map ObjectProperty.landingGear),
   (("LandingGearHandle".toList), fun value => (parseF64E value).map ObjectProperty.landingGearHandle),
   (("Tailhook".toList), fun value => (parseF64E value).map ObjectProperty.tailhook),
   (("Parachute".toList), fun value => (parseF64E value).map ObjectProperty.parachute),
   (("DragChute".toList), fun value => (parseF64E value).map ObjectProperty.dragChute),
   (("FuelWeight".toList), fun value => (parseF64E value).map ObjectProperty.fuelWeight),
   (("FuelWeight2".toList), fun value => (parseF64E value).map ObjectProperty.fuelWeight2),
   (("FuelWeight3".toList), fun value => (parseF64E value).map ObjectProperty.fuelWeight3),
   (("FuelWeight4".toList), fun value => (parseF64E value).map ObjectProperty.fuelWeight4),
   (("FuelWeight5".toList), fun value => (parseF64E value).map ObjectProperty.fuelWeight5),
   (("FuelWeight6".toList), fun value => (parseF64E value).map ObjectProperty.fuelWeight6),
   (("FuelWeight7".toList), fun value => (parseF64E value).map ObjectProperty.fuelWeight7)]

/-- Branch table of ObjectProperty::from_str, segment 6 of 11, in
source order. -/
def ObjectProperty.branches6 : ObjPropBranches :=
  [(("FuelWeight8".toList), fun value => (parseF64E value).map ObjectProperty.fuelWeight8),
   (("FuelWeight9".toList), fun value => (parseF64E value).map ObjectProperty.fuelWeight9),
   (("FuelVolume".toList), fun value => (parseF64E value).map ObjectProperty.fuelVolume),
   (("FuelVolume2".toList), fun value => (parseF64E value).map ObjectProperty.fuelVolume2),
   (("FuelVolume3".toList), fun value => (parseF64E value).map ObjectProperty.fuelVolume3),
   (("FuelVolume4".toList), fun value => (parseF64E value).map ObjectProperty.fuelVolume4),
   (("FuelVolume5".toList), fun value => (parseF64E value).map ObjectProperty.fuelVolume5),
   (("FuelVolume6".toList), fun value => (parseF64E value).map ObjectProperty.fuelVolume6),
   (("FuelVolume7".toList), fun value => (parseF64E value).map ObjectProperty.fuelVolume7),
   (("FuelVolume8".toList), fun value => (parseF64E value).map ObjectProperty.fuelVolume8),
   (("FuelVolume9".toList), fun value => (parseF64E value).map ObjectProperty.fuelVolume9),
   (("FuelFlowWeight".toList), fun value => (parseF64E value).map ObjectProperty.fuelFlowWeight)]

/-- Branch table of ObjectProperty::from_str, segment 7 of 11, in
source order. -/
def ObjectProperty.branches7 : ObjPropBranches :=
  [(("FuelFlowWeight2".toList), fun value => (parseF64E value).map ObjectProperty.fuelFlowWeight2),
   (("FuelFlowWeight3".toList), fun value => (parseF64E value).map ObjectProperty.fuelFlowWeight3),
   (("FuelFlowWeight4".toList), fun value => (parseF64E value).map ObjectProperty.fuelFlowWeight4),
   (("FuelFlowWeight5".toList), fun value => (parseF64E value).map ObjectProperty.fuelFlowWeight5),
   (("FuelFlowWeight6".toList), fun value => (parseF64E value).map ObjectProperty.fuelFlowWeight6),
   (("FuelFlowWeight7".toList), fun value => (parseF64E value).map ObjectProperty.fuelFlowWeight7),
   (("FuelFlowVolume".toList), fun value => (parseF64E value).map ObjectProperty.fuelFlowVolume),
   (("FuelFlowVolume2".toList), fun value => (parseF64E value).map ObjectProperty.fuelFlowVolume2),
   (("FuelFlowVolume3".toList), fun value => (parseF64E value).map ObjectProperty.fuelFlowVolume3),
   (("FuelFlowVolume4".toList), fun value => (parseF64E value).map ObjectProperty.fuelFlowVolume4),
   (("FuelFlowVolume5".toList), fun value => (parseF64E value).map ObjectProperty.fuelFlowVolume5),
   (("FuelFlowVolume6".toList), fun value => (parseF64E value).map ObjectProperty.fuelFlowVolume6)]

/-- Branch table of ObjectProperty::from_str, segment 8 of 11, in
source order. -/
def ObjectProperty.branches8 : ObjPropBranches :=
  [(("FuelFlowVolume7".toList), fun value => (parseF64E value).map ObjectProperty.fuelFlowVolume7),
   (("RadarMode".toList), fun value => (parseU64 value).map ObjectProperty.radarMode),
   (("RadarAzimuth".toList), fun value => (parseF64E value).map ObjectProperty.radarAzimuth),
   (("RadarElevation".toList), fun value => (parseF64E value).map ObjectProperty.radarElevation),
   (("RadarRoll".toList), fun value => (parseF64E value).map ObjectProperty.radarRoll),
   (("RadarRange".toList), fun value => (parseF64E value).map ObjectProperty.radarRange),
   (("RadarHorizontalBeamwidth".toList), fun value => (parseF64E value).map ObjectProperty.radarHorizontalBeamwidth),
   (("RadarVerticalBeamwidth".toList), fun value => (parseF64E value).map ObjectProperty.radarVerticalBeamwidth),
   (("RadarRangeGateAzimuth".toList), fun value => (parseF64E value).map ObjectProperty.radarRangeGateAzimuth),
   (("RadarRangeGateElevation".toList), fun value => (parseF64E value).map ObjectProperty.radarRangeGateElevation),
   (("RadarRangeGateRoll".toList), fun value => (parseF64E value).map ObjectProperty.radarRangeGateRoll),
   (("RadarRangeGateMin".toList), fun value => (parseF64E value).map ObjectProperty.radarRangeGateMin)]

/-- Branch table of ObjectProperty::from_str, segment 9 of 11, in
source order. -/
def ObjectProperty.branches9 : ObjPropBranches :=
  [(("RadarRangeGateMax".toList), fun value => (parseF64E value).map ObjectProperty.radarRangeGateMax),
   (("RadarRangeGateHorizontalBeamwidth".toList), fun value => (parseF64E value).map ObjectProperty.radarRangeGateHorizontalBeamwidth),
   (("RadarRangeGateVerticalBeamwidth".toList), fun value => (parseF64E value).map ObjectProperty.radarRangeGateVerticalBeamwidth),
   (("LockedTargetMode".toList), fun value => (parseU64 value).map ObjectProperty.lockedTargetMode),
   (("LockedTargetElevation".toList), fun value => (parseF64E value).map ObjectProperty.lockedTargetElevation),
   (("LockedTargetRange".toList), fun value => (parseF64E value).map ObjectProperty.lockedTargetRange),
   (("EngagementMode".toList), fun value => (parseU64 value).map ObjectProperty.engagementMode),
   (("EngagementMode2".toList), fun value => (parseU64 value).map ObjectProperty.engagementMode2),
   (("EngagementRange".toList), fun value => (parseF64E value).map ObjectProperty.engagementRange),
   (("EngagementRange2".toList), fun value => (parseF64E value).map ObjectProperty.engagementRange2),
   (("VerticalEngagementRange".toList), fun value => (parseF64E value).map ObjectProperty.verticalEngagementRange),
   (("VerticalEngagementRange2".toList), fun value => (parseF64E value).map ObjectProperty.verticalEngagementRange2)]

/-- Branch table of ObjectProperty::from_str, segment 10 of 11, in
source order. -/
def ObjectProperty.branches10 : ObjPropBranches :=
  [(("RollControlInput".toList), fun value => (parseF64E value).map ObjectProperty.rollControlInput),
   (("PitchControlInput".toList), fun value => (parseF64E value).map ObjectProperty.pitchControlInput),
   (("YawControlInput".toList), fun value => (parseF64E value).map ObjectProperty.yawControlInput),
   (("RollControlPosition".toList), fun value => (parseF64E value).map ObjectProperty.rollControlPosition),
   (("PitchControlPosition".toList), fun value => (parseF64E value).map ObjectProperty.pitchControlPosition),
   (("YawControlPosition".toList), fun value => (parseF64E value).map ObjectProperty.yawControlPosition),
   (("RollTrimTab".toList), fun value => (parseF64E value).map ObjectProperty.rollTrimTab),
   (("PitchTrimTab".toList), fun value => (parseF64E value).map ObjectProperty.pitchTrimTab),
   (("YawTrimTab".toList), fun value => (parseF64E value).map ObjectProperty.yawTrimTab),
   (("AileronLeft".toList), fun value => (parseF64E value).map ObjectProperty.aileronLeft),
   (("AileronRight".toList), fun value => (parseF64E value).map ObjectProperty.aileronRight),
   (("Elevator".toList), fun value => (parseF64E value).map ObjectProperty.elevator)]

/-- Branch table of ObjectProperty::from_str, segment 11 of 11, in
source order. -/
def ObjectProperty.branches11 : ObjPropBranches :=
  [(("Rudder".toList), fun value => (parseF64E value).map ObjectProperty.rudder),
   (("PilotHeadRoll".toList), fun value => (parseF64E value).map ObjectProperty.pilotHeadRoll),
   (("PilotHeadPitch".toList), fun value => (parseF64E value).map ObjectProperty.pilotHeadPitch),
   (("PilotHeadYaw".toList), fun value => (parseF64E value).map ObjectProperty.pilotHeadYaw),
   (("VerticalGForce".toList), fun value => (parseF64E value).map ObjectProperty.verticalGForce),
   (("LongitudinalGForce".toList), fun value => (parseF64E value).map ObjectProperty.longitudinalGForce),
   (("LateralGForce".toList), fun value => (parseF64E value).map ObjectProperty.lateralGForce),
   (("TriggerPressed".toList), fun value => .ok (.triggerPressed (value == ("1".toList) || value == ("1.0".toList)))),
   (("ENL".toList), fun value => (parseF64E value).map ObjectProperty.enl),
   (("HeartRate".toList), fun value => (parseU64 value).map ObjectProperty.heartRate),
   (("SpO2".toList), fun value => (parseF64E value).map ObjectProperty.spO2)]

/-- The full ordered branch table of ObjectProperty::from_str, branch for
branch in source order. -/
def ObjectProperty.branches : ObjPropBranches :=
  ObjectProperty.branches1 ++ ObjectProperty.branches2 ++ ObjectProperty.branches3 ++ ObjectProperty.branches4 ++ ObjectProperty.branches5 ++ ObjectProperty.branches6 ++ ObjectProperty.branches7 ++ ObjectProperty.branches8 ++ ObjectProperty.branches9 ++ ObjectProperty.branches10 ++ ObjectProperty.branches11

/-- Model of ObjectProperty::from_str: the sequential Key= prefix dispatch
of the source; an unmatched key falls through to a split at the first
equals sign, yielding unknown(name, value), or the malformed error when
no equals sign occurs. -/
def ObjectProperty.from_str (s : List Char) : Except Error ObjectProperty :=
  dispatchKeyEq ObjectProperty.branches
    (fun s =>
      match splitOnceChar '=' s with
      | none => .error (.malformedObjectProperty s)
      | some p => .ok (.unknown p.1 p.2)) s

/-- The keys recognized by the object-property dispatch, in source order. -/
def objectKnownKeys : List (List Char) :=
  ObjectProperty.branches.map Prod.fst

end Tacview

namespace Tacview

/-- Weapon-timeout event payload: seven optional text fields. -/
structure TimeoutEvent where
  source_id : Option (List Char) := none
  ammo_type : Option (List Char) := none
  ammo_count : Option (List Char) := none
  bullseye : Option (List Char) := none
  target_id : Option (List Char) := none
  intended_target : Option (List Char) := none
  outcome : Option (List Char) := none
deriving DecidableEq, Repr

/-- One token of the timeout sub-grammar: a recognized KeyName colon prefix
assigns the corresponding field (later tokens win); anything else is
silently ignored. -/
def TimeoutEvent.step (acc : TimeoutEvent) (token : List Char) : TimeoutEvent :=
  match stripPre? ("SourceId:".toList) token with
  | some t => { acc with source_id := some t }
  | none =>
  match stripPre? ("AmmoType:".toList) token with
  | some t => { acc with ammo_type := some t }
  | none =>
  match stripPre? ("AmmoCount:".toList) token with
  | some t => { acc with ammo_count := some t }
  | none =>
  match stripPre? ("Bullseye:".toList) token with
  | some t => { acc with bullseye := some t }
  | none =>
  match stripPre? ("TargetId:".toList) token with
  | some t => { acc with target_id := some t }
  | none =>
  match stripPre? ("IntendedTarget:".toList) token with
  | some t => { acc with intended_target := some t }
  | none =>
  match stripPre? ("Outcome:".toList) token with
  | some t => { acc with outcome := some t }
  | none => acc

/-- Model of TimeoutEvent::from_tokens_iter: a fold of the token stream over
the seven mutable option slots; it never fails. -/
def TimeoutEvent.from_tokens_iter (tokens : List (List Char)) : Except Error TimeoutEvent :=
  .ok (tokens.foldl TimeoutEvent.step {})

/-- Discrete events. -/
inductive Event where
  | message (id : Nat) (text : List Char)
  | bookmark (text : List Char)
  | debug (text : List Char)
  | leftArea (id : Nat)
  | destroyed (id : Nat)
  | takenOff (id : Nat) (text : List Char)
  | landed (id : Nat) (text : List Char)
  | timeout (e : TimeoutEvent)
  | unknown (type value : List Char)
deriving DecidableEq, Repr

/-- Model of Event::from_str: the full record suffix (beginning with the
text Event=) is split on the pipe character (plain split, no escape
handling); the first token selects the event kind and the following tokens
supply its payload, exactly as the source consumes its token iterator. -/
def Event.from_str (s : List Char) : Except Error Event :=
  match splitOnChar '|' s with
  | [] => .error (.malformedEvent s)
  | event_type :: tokens =>
    if event_type = ("Event=Message".toList) then
      match tokens with
      | [] => .error (.malformedEvent s)
      | id :: rest =>
        match parse_object_id id with
        | .error e => .error e
        | .ok oid =>
          match rest with
          | [] => .error (.malformedEvent s)
          | msg :: _ => .ok (.message oid msg)
    else if event_type = ("Event=Bookmark".toList) then
      match tokens with
      | [] => .error (.malformedEvent s)
      | msg :: _ => .ok (.bookmark msg)
    else if event_type = ("Event=Debug".toList) then
      match tokens with
      | [] => .error (.malformedEvent s)
      | msg :: _ => .ok (.debug msg)
    else if event_type = ("Event=LeftArea".toList) then
      match tokens with
      | [] => .error (.malformedEvent s)
      | id :: _ => (parse_object_id id).map .leftArea
    else if event_type = ("Event=Destroyed".toList) then
      match tokens with
      | [] => .error (.malformedEvent s)
      | id :: _ => (parse_object_id id).map .destroyed
    else if event_type = ("Event=TakenOff".toList) then
      match tokens with
      | [] => .error (.malformedEvent s)
      | id :: rest =>
        match parse_object_id id with
        | .error e => .error e
        | .ok oid =>
          match rest with
          | [] => .error (.malformedEvent s)
          | msg :: _ => .ok (.takenOff oid msg)
    else if event_type = ("Event=Landed".toList) then
      match tokens with
      | [] => .error (.malformedEvent s)
      | id :: rest =>
        match parse_object_id id with
        | .error e => .error e
        | .ok oid =>
          match rest with
          | [] => .error (.malformedEvent s)
          | msg :: _ => .ok (.landed oid msg)
    else if event_type = ("Event=Timeout".toList) then
      (TimeoutEvent.from_tokens_iter tokens).map .timeout
    else
      let p :=
        match splitOnceChar '|' s with
        | some q => q
        | none => (s, [])
      match splitOnceChar '=' p.1 with
      | none => .error (.malformedEvent s)
      | some q => .ok (.unknown q.2 p.2)

end Tacview

namespace Tacview

/-- One step of the escape-aware comma tokenizer loop: append the plain
token to the pending buffer; a buffer ending in a backslash means the comma
that follows was escaped, so the backslash is replaced by a literal comma
and accumulation continues, otherwise the buffer is emitted as a field. -/
def commaStep (acc : List (List Char) × List Char) (token : List Char) :
    List (List Char) × List Char :=
  let buf := acc.2 ++ token
  if buf.getLast? = some '\\' then (acc.1, buf.dropLast ++ [','])
  else (acc.1 ++ [buf], [])

/-- Model of parse_comma: split on every comma, then refold tokens whose
accumulated buffer ends in a backslash; a nonempty trailing buffer is
emitted as a final field (an empty one, arising from a trailing escaped
comma turned literal only when nonempty, is dropped). -/
def parse_comma (line : List Char) : List (List Char) :=
  let r := (splitOnChar ',' line).foldl commaStep ([], [])
  if r.2 = [] then r.1 else r.1 ++ [r.2]

/-- Telemetry records. -/
inductive Record where
  | remove (id : Nat)
  | frame (t : FloatVal)
  | event (e : Event)
  | globalProperties (props : List GlobalProperty)
  | update (id : Nat) (props : List ObjectProperty)

/-- Model of Record::from_str: a leading minus is a removal, a leading hash
is a time frame, otherwise the line splits at the first comma into a head
and a tail; head 0 gives an event (when the tail starts with Event=) or a
batch of global properties, any other head is a hex object id and the tail
a batch of object properties.  Failure cases (no comma, bad id, bad
property) mirror the source. -/
def Record.from_str (s : List Char) : Except Error Record :=
  match stripPre? ['-'] s with
  | some line => (parse_object_id line).map .remove
  | none =>
  match stripPre? ['#'] s with
  | some line => (parseF64E line).map .frame
  | none =>
  match splitOnceChar ',' s with
  | none => .error .acmiReaderEol
  | some p =>
    if p.1 = ("0".toList) then
      if startsWith ("Event=".toList) p.2 then
        (Event.from_str p.2).map .event
      else
        ((parse_comma p.2).mapM GlobalProperty.from_str).map .globalProperties
    else
      match parse_object_id p.1 with
      | .error e => .error e
      | .ok id => ((parse_comma p.2).mapM ObjectProperty.from_str).map (.update id)

end Tacview

namespace Tacview

/-- Model of one AsyncBufReadExt::read_line call on a character stream:
returns the consumed physical line (including its newline terminator when
one occurs) and the unread remainder; at end of stream it returns the empty
line. -/
def readLine : List Char → List Char × List Char
  | [] => ([], [])
  | c :: rest =>
    if c = '\n' then ([c], rest)
    else (c :: (readLine rest).1, (readLine rest).2)

/-- Removes one trailing newline if present, like the strip_suffix and
unwrap_or step of the next loop. -/
def stripNewline (l : List Char) : List Char :=
  if l.getLast? = some '\n' then l.dropLast else l

theorem readLine_len : ∀ (s : List Char),
    (readLine s).1.length + (readLine s).2.length = s.length
  | [] => rfl
  | c :: rest => by
    by_cases hc : c = '\n'
    · subst hc
      show ((['\n'] : List Char), rest).1.length
          + ((['\n'] : List Char), rest).2.length = rest.length + 1
      simp only [List.length_cons, List.length_nil]
      omega
    · have ih := readLine_len rest
      simp only [readLine, if_neg hc, List.length_cons]
      omega

theorem readLine_fst_ne (s : List Char) (h : s ≠ []) : (readLine s).1 ≠ [] := by
  cases s with
  | nil => exact absurd rfl h
  | cons c rest =>
    simp only [readLine]
    split <;> simp

theorem readLine_nil_fst : (readLine ([] : List Char)).1 = [] := rfl

theorem readLine_no_newline_snd (s : List Char)
    (h : (readLine s).1.getLast? ≠ some '\n') : (readLine s).2 = [] := by
  induction s with
  | nil => rfl
  | cons c rest ih =>
    by_cases hc : c = '\n'
    · exfalso
      apply h
      simp [readLine, hc]
    · have hx : readLine (c :: rest) = (c :: (readLine rest).1, (readLine rest).2) := by
        simp [readLine, hc]
      rw [hx]
      apply ih
      intro hlast
      apply h
      rw [hx]
      cases hfst : (readLine rest).1 with
      | nil => rw [hfst] at hlast; exact absurd hlast (by simp)
      | cons a b =>
        rw [hfst] at hlast
        show (c :: (a :: b)).getLast? = some '\n'
        rw [List.getLast?_cons_cons]
        exact hlast

/-- Termination measure for the next loop: total unread plus buffered
characters, with a parity token that pays for the iteration that converts
an unterminated buffered line into a newline-terminated one at end of
stream. -/
def nextMeasure (stream acc : List Char) : Nat :=
  2 * (stream.length + acc.length) +
    (if stream = [] ∧ acc.getLast? = some '\n' then 0 else 1)

theorem stripNewline_length_le (l : List Char) : (stripNewline l).length ≤ l.length := by
  unfold stripNewline
  split
  · exact (l.length_dropLast) ▸ Nat.sub_le _ _
  · exact Nat.le_refl _

theorem nextMeasure_comment (stream acc : List Char)
    (h1 : startsWith ("//".toList) (stripNewline (acc ++ (readLine stream).1))) :
    nextMeasure (readLine stream).2 [] < nextMeasure stream acc := by
  have hlen := readLine_len stream
  obtain ⟨r, hr⟩ := Option.isSome_iff_exists.mp h1
  have hline : stripNewline (acc ++ (readLine stream).1) = '/' :: '/' :: r :=
    (stripPre?_eq_some _ _ _).mp hr
  have h2 : 2 ≤ (stripNewline (acc ++ (readLine stream).1)).length := by
    rw [hline]
    simp only [List.length_cons]
    omega
  have h3 := stripNewline_length_le (acc ++ (readLine stream).1)
  rw [List.length_append] at h3
  unfold nextMeasure
  simp only [List.length_nil, List.getLast?_nil]
  split <;> split <;> omega

theorem nextMeasure_cont (stream acc : List Char)
    (h2 : (stripNewline (acc ++ (readLine stream).1)).getLast? = some '\\') :
    nextMeasure (readLine stream).2
        ((stripNewline (acc ++ (readLine stream).1)).dropLast ++ ['\n']) <
      nextMeasure stream acc := by
  have hlen := readLine_len stream
  set line := stripNewline (acc ++ (readLine stream).1) with hline
  have hne : line ≠ [] := by
    intro h
    rw [h] at h2
    exact Option.noConfusion h2
  have hnel := List.length_pos.mpr hne
  have hacc : (line.dropLast ++ ['\n']).length = line.length := by
    rw [List.length_append, List.length_dropLast, List.length_singleton]
    omega
  have hlast : (line.dropLast ++ ['\n']).getLast? = some '\n' := by
    rw [List.getLast?_append]
    rfl
  by_cases hstrip : (acc ++ (readLine stream).1).getLast? = some '\n'
  · -- a newline was stripped: the total strictly shrinks
    have h5 : line.length + 1 = acc.length + (readLine stream).1.length := by
      rw [hline]
      unfold stripNewline
      rw [if_pos hstrip, List.length_dropLast]
      have hne2 : acc ++ (readLine stream).1 ≠ [] := by
        intro hh
        rw [hh] at hstrip
        exact Option.noConfusion hstrip
      have hp := List.length_pos.mpr hne2
      rw [List.length_append] at hp ⊢
      omega
    unfold nextMeasure
    have hi1 : (if (readLine stream).2 = [] ∧ (line.dropLast ++ ['\n']).getLast? = some '\n'
        then 0 else 1) ≤ 1 := by split <;> omega
    omega
  · -- nothing was stripped: the read line has no terminator, so the stream
    -- is exhausted and the old parity token is live
    have h5 : line = acc ++ (readLine stream).1 := by
      rw [hline]
      unfold stripNewline
      rw [if_neg hstrip]
    have h6 : (readLine stream).1.getLast? ≠ some '\n' := by
      intro hh
      apply hstrip
      rw [List.getLast?_append, hh]
      rfl
    have h7 : (readLine stream).2 = [] := readLine_no_newline_snd stream h6
    have h8 : ¬(stream = [] ∧ acc.getLast? = some '\n') := by
      rintro ⟨hs, haccl⟩
      apply hstrip
      subst hs
      rw [readLine_nil_fst, List.append_nil]
      exact haccl
    have h9 : line.length = acc.length + (readLine stream).1.length := by
      rw [h5, List.length_append]
    unfold nextMeasure
    have hi1 : (if (readLine stream).2 = [] ∧ (line.dropLast ++ ['\n']).getLast? = some '\n'
        then 0 else 1) = 0 := if_pos ⟨h7, hlast⟩
    have hi2 : (if stream = [] ∧ acc.getLast? = some '\n' then 0 else 1) = 1 := if_neg h8
    have h10 : (readLine stream).2.length = 0 := by rw [h7]; rfl
    omega

/-- Model of the loop body of RealTimeReader::next, operating on the unread
stream and the accumulated logical line: read a physical line, strip one
trailing newline from the accumulated text, restart with an empty
accumulator on a comment line, continue accumulating (with the trailing
backslash replaced by a literal newline) on a continuation line, and parse
the logical line otherwise.  There is no empty-line test: a blank physical
line falls through to parsing. -/
def nextLoop (stream acc : List Char) : Except Error Record × List Char :=
  if h1 : startsWith ("//".toList) (stripNewline (acc ++ (readLine stream).1)) then
    nextLoop (readLine stream).2 []
  else if h2 : (stripNewline (acc ++ (readLine stream).1)).getLast? = some '\\' then
    nextLoop (readLine stream).2
      ((stripNewline (acc ++ (readLine stream).1)).dropLast ++ ['\n'])
  else
    (Record.from_str (stripNewline (acc ++ (readLine stream).1)), (readLine stream).2)
termination_by nextMeasure stream acc
decreasing_by
  · exact nextMeasure_comment stream acc h1
  · exact nextMeasure_cont stream acc h2

/-- Model of RealTimeReader::next on a character stream: the loop starts
with an empty accumulated line and returns the parsed record (or error)
together with the unread remainder of the stream. -/
def RealTimeReader.next (stream : List Char) : Except Error Record × List Char :=
  nextLoop stream []

/-- The validated ACMI stream header. -/
structure Header where
  file_type : List Char
  file_version : List Char
deriving DecidableEq, Repr

/-- Model of parse_header: reads two physical lines; the first must equal
the exact FileType line, the second must start with FileVersion=2.2.  The
source then strips the known prefix and a trailing newline with unwrap
calls; a failing unwrap is a panic, modelled as Option.none. -/
def parse_header (stream : List Char) : Option (Except Error Header) :=
  let p1 := readLine stream
  if p1.1 ≠ ("FileType=text/acmi/tacview\n".toList) then
    some (.error (.badAcmiFileType p1.1))
  else
    match stripPre? ("FileType=".toList) p1.1 with
    | none => none
    | some r1 =>
      match stripSuffixChar? '\n' r1 with
      | none => none
      | some file_type =>
        let p2 := readLine p1.2
        if ¬ startsWith ("FileVersion=2.2".toList) p2.1 then
          some (.error (.badAcmiFileVersion p2.1))
        else
          match stripPre? ("FileVersion=".toList) p2.1 with
          | none => none
          | some r2 =>
            match stripSuffixChar? '\n' r2 with
            | none => none
            | some file_version => some (.ok ⟨file_type, file_version⟩)

end Tacview

namespace Tacview

/-- Model of str::encode_utf16: each scalar value below 2 ^ 16 is one code
unit; larger ones become a surrogate pair (the shifts and masks of the
standard algorithm written as division and remainder by 1024). -/
def encodeUtf16 (s : List Char) : List Nat :=
  s.flatMap fun c =>
    let n := c.toNat
    if n < 65536 then [n]
    else [55296 + (n - 65536) / 1024, 56320 + (n - 65536) % 1024]

/-- One bit step of the reflected CRC-32 with the reversed polynomial of
CRC-32/ISO-HDLC. -/
def crc32Step (state : Nat) : Nat :=
  if state % 2 = 1 then (state / 2) ^^^ 0xEDB88320 else state / 2

/-- One byte of CRC-32/ISO-HDLC: xor the byte into the low bits and run
eight bit steps.  This is the published bitwise definition of the
CRC_32_ISO_HDLC algorithm of the external crc crate collaborator
(reflected, initial value and final xor all ones). -/
def crc32Byte (state b : Nat) : Nat :=
  crc32Step^[8] (state ^^^ b)

/-- CRC-32/ISO-HDLC of a byte sequence. -/
def crc32 (bytes : List Nat) : Nat :=
  (bytes.foldl crc32Byte 0xFFFFFFFF) ^^^ 0xFFFFFFFF

/-- The lowercase hexadecimal digit for a value below sixteen. -/
def hexDigitChar (n : Nat) : Char :=
  if n < 10 then Char.ofNat (48 + n) else Char.ofNat (87 + n)

/-- Accumulates the hexadecimal digits of n, least significant last. -/
def toHexCore (n : Nat) (acc : List Char) : List Char :=
  if h : n = 0 then acc
  else toHexCore (n / 16) (hexDigitChar (n % 16) :: acc)
termination_by n
decreasing_by
  exact Nat.div_lt_self (Nat.pos_of_ne_zero h) (by omega)

/-- Model of the Rust lowercase-hex Display format used by
format bang with the x specifier: minimal lowercase digits, and a single
zero digit for zero. -/
def toHexLower (n : Nat) : List Char :=
  if n = 0 then ['0'] else toHexCore n []

/-- Model of hash_password: encode the password as UTF-16 code units, push
for each unit first the low byte (the unit cast to u8) and then the high
byte (the unit shifted right by eight and cast to u8), take the
CRC-32/ISO-HDLC checksum of those bytes and format it as lowercase hex. -/
def hash_password (password : List Char) : List Char :=
  let password_bytes :=
    (encodeUtf16 password).flatMap fun c => [c % 256, (c / 256) % 256]
  toHexLower (crc32 password_bytes)

/-- Written from the specification text: interpret the password as UTF-16
code units; serialize each code unit as two bytes in little-endian order
(low byte, then high byte); compute CRC-32/ISO-HDLC over that byte
sequence; format the result as lowercase hexadecimal with no leading
zeros. -/
def specPasswordDigest (password : List Char) : List Char :=
  let bytes := (encodeUtf16 password).flatMap fun u => [u % 256, u / 256]
  toHexLower (crc32 bytes)

end Tacview

namespace Tacview

/-! Helper lemmas and claim theorems. -/

theorem char_toNat_lt (c : Char) : c.toNat < 1114112 := by
  have h := c.valid
  rcases h with h | ⟨_, h2⟩
  · exact Nat.lt_trans h (by norm_num)
  · exact h2

theorem encodeUtf16_lt (s : List Char) : ∀ u ∈ encodeUtf16 s, u < 65536 := by
  intro u hu
  unfold encodeUtf16 at hu
  rw [List.mem_flatMap] at hu
  obtain ⟨c, _, hc⟩ := hu
  by_cases hn : c.toNat < 65536
  · rw [if_pos hn] at hc
    rcases List.mem_singleton.mp hc with rfl
    exact hn
  · rw [if_neg hn] at hc
    have hbound := char_toNat_lt c
    have hm : c.toNat - 65536 ≤ 1048575 := by omega
    rcases List.mem_cons.mp hc with h | h
    · have hdiv : (c.toNat - 65536) / 1024 < 1024 := Nat.div_lt_of_lt_mul (by omega)
      omega
    · have hh := List.mem_singleton.mp h
      have hmod : (c.toNat - 65536) % 1024 < 1024 := Nat.mod_lt _ (by omega)
      omega

theorem flatMap_le_bytes (l : List Nat) (h : ∀ u ∈ l, u < 65536) :
    (l.flatMap fun c => [c % 256, (c / 256) % 256]) =
      (l.flatMap fun u => [u % 256, u / 256]) := by
  induction l with
  | nil => rfl
  | cons c rest ih =>
    have hc : c < 65536 := h c (List.mem_cons_self c rest)
    have hdiv : c / 256 < 256 := by omega
    have hmod : (c / 256) % 256 = c / 256 := Nat.mod_eq_of_lt hdiv
    simp only [List.flatMap_cons]
    rw [hmod, ih (fun u hu => h u (List.mem_cons_of_mem c hu))]

/-- C5: for every password, the password digest equals the CRC-32/ISO-HDLC
of the little-endian two-byte serialization of its UTF-16 code units,
formatted as minimal lowercase hexadecimal; for the empty password it is
the so-formatted CRC of the empty byte string. -/
theorem C5_password_digest :
    (∀ password : List Char, hash_password password = specPasswordDigest password) ∧
      hash_password [] = toHexLower (crc32 []) := by
  constructor
  · intro password
    unfold hash_password specPasswordDigest
    rw [flatMap_le_bytes _ (encodeUtf16_lt password)]
  · rfl

/-- Encodes one field for the escape-aware tokenizer by writing each
occurrence of the delimiter with a preceding backslash (written from the
round-trip wording of the specification). -/
def escapeChar (d : Char) : List Char → List Char
  | [] => []
  | c :: rest =>
    if c = d then '\\' :: d :: escapeChar d rest
    else c :: escapeChar d rest

theorem commaFold_escape (f : List Char) (out : List (List Char)) (buf : List Char)
    (h : (buf ++ f).getLast? ≠ some '\\') :
    (splitOnChar ',' (escapeChar ',' f)).foldl commaStep (out, buf) =
      (out ++ [buf ++ f], []) := by
  induction f generalizing out buf with
  | nil =>
    show [([] : List Char)].foldl commaStep (out, buf) = _
    simp only [List.foldl_cons, List.foldl_nil, commaStep, List.append_nil]
    rw [List.append_nil] at h
    rw [if_neg h]
  | cons c g ih =>
    by_cases hc : c = ','
    · subst hc
      have he : escapeChar ',' (',' :: g) = '\\' :: ',' :: escapeChar ',' g := by
        simp [escapeChar]
      rw [he]
      have hsplit : splitOnChar ',' ('\\' :: ',' :: escapeChar ',' g) =
          ['\\'] :: splitOnChar ',' (escapeChar ',' g) := by
        obtain ⟨fh, fs, hfs, hcons⟩ :=
          splitOnChar_cons_ne ',' '\\' (',' :: escapeChar ',' g) (by decide)
        rw [hcons]
        have hmid : splitOnChar ',' (',' :: escapeChar ',' g) =
            [] :: splitOnChar ',' (escapeChar ',' g) := by
          simp [splitOnChar]
        rw [hmid] at hfs
        injection hfs with h1 h2
        rw [h1, h2]
      rw [hsplit]
      simp only [List.foldl_cons]
      have hl : (buf ++ ['\\']).getLast? = some '\\' := by
        rw [List.getLast?_append]
        rfl
      have hstep : commaStep (out, buf) ['\\'] = (out, buf ++ [',']) := by
        unfold commaStep
        simp [hl]
      rw [hstep]
      have happ : buf ++ ',' :: g = (buf ++ [',']) ++ g := by simp
      rw [happ] at h ⊢
      exact ih out (buf ++ [',']) h
    · have he : escapeChar ',' (c :: g) = c :: escapeChar ',' g := by
        simp [escapeChar, hc]
      rw [he]
      obtain ⟨fh, fs, hfs, hcons⟩ := splitOnChar_cons_ne ',' c (escapeChar ',' g) hc
      rw [hcons]
      simp only [List.foldl_cons]
      have hstep : commaStep (out, buf) (c :: fh) = commaStep (out, buf ++ [c]) fh := by
        simp [commaStep]
      rw [hstep]
      have happ : buf ++ c :: g = (buf ++ [c]) ++ g := by simp
      rw [happ] at h ⊢
      have hthis := ih out (buf ++ [c]) h
      rw [hfs] at hthis
      simp only [List.foldl_cons] at hthis
      exact hthis

/-- C7 (amended): the tokenizer round-trip holds for every field that does
not end in a backslash: encoding a field by writing each comma as
backslash-comma and splitting again yields exactly that one field. -/
theorem C7_round_trip (f : List Char) (h : f.getLast? ≠ some '\\') :
    parse_comma (escapeChar ',' f) = [f] := by
  unfold parse_comma
  rw [commaFold_escape f [] [] (by simpa using h)]
  rfl

/-- C7 counterexample: for the one-character field backslash, encoding is
the identity and the tokenizer returns a literal comma instead of the
original field, so the round-trip claim fails as stated. -/
theorem C7_counterexample :
    parse_comma (escapeChar ',' (['\\'])) = [([','])] ∧
      (([([','])] : List (List Char)) ≠ [(['\\'])]) := by
  constructor
  · decide
  · decide

/-- C7 witness: the round trip at the concrete field a comma b. -/
theorem C7_witness : parse_comma (escapeChar ',' ("a,b".toList)) = [("a,b".toList)] :=
  C7_round_trip ("a,b".toList) (by decide)

/-- C9: the coordinate merge takes every present field of the source and
keeps every absent one; merging with the all-absent value is the identity,
the merge is idempotent, and two merges with sources that set the same
fields to the same values commute. -/
theorem C9_coords_update :
    (∀ s o : Coords,
      (Coords.update s o).longitude = o.longitude.or s.longitude ∧
      (Coords.update s o).latitude = o.latitude.or s.latitude ∧
      (Coords.update s o).altitude = o.altitude.or s.altitude ∧
      (Coords.update s o).roll = o.roll.or s.roll ∧
      (Coords.update s o).pitch = o.pitch.or s.pitch ∧
      (Coords.update s o).yaw = o.yaw.or s.yaw ∧
      (Coords.update s o).u = o.u.or s.u ∧
      (Coords.update s o).v = o.v.or s.v ∧
      (Coords.update s o).heading = o.heading.or s.heading) ∧
    (∀ s : Coords, Coords.update s Coords.default = s) ∧
    (∀ s o : Coords, Coords.update (Coords.update s o) o = Coords.update s o) ∧
    (∀ s o1 o2 : Coords, o1 = o2 →
      Coords.update (Coords.update s o1) o2 = Coords.update (Coords.update s o2) o1) := by
  refine ⟨?_, ?_, ?_, ?_⟩
  · intro s o
    obtain ⟨o1, o2, o3, o4, o5, o6, o7, o8, o9⟩ := o
    refine ⟨?_, ?_, ?_, ?_, ?_, ?_, ?_, ?_, ?_⟩ <;>
      first
        | (cases o1 <;> rfl)
        | (cases o2 <;> rfl)
        | (cases o3 <;> rfl)
        | (cases o4 <;> rfl)
        | (cases o5 <;> rfl)
        | (cases o6 <;> rfl)
        | (cases o7 <;> rfl)
        | (cases o8 <;> rfl)
        | (cases o9 <;> rfl)
  · intro s
    rfl
  · intro s o
    obtain ⟨o1, o2, o3, o4, o5, o6, o7, o8, o9⟩ := o
    apply Coords.ext <;>
      first
        | (cases o1 <;> rfl)
        | (cases o2 <;> rfl)
        | (cases o3 <;> rfl)
        | (cases o4 <;> rfl)
        | (cases o5 <;> rfl)
        | (cases o6 <;> rfl)
        | (cases o7 <;> rfl)
        | (cases o8 <;> rfl)
        | (cases o9 <;> rfl)
  · intro s o1 o2 h
    subst h
    rfl

/-- C9 witness: the merge properties applied at a concrete pair of
coordinate values. -/
theorem C9_witness :
    Coords.update
        (Coords.update { longitude := some (.finite false 1 0) }
          { latitude := some (.finite false 2 0) })
        { latitude := some (.finite false 2 0) } =
      Coords.update { longitude := some (.finite false 1 0) }
        { latitude := some (.finite false 2 0) } :=
  C9_coords_update.2.2.1 { longitude := some (.finite false 1 0) }
    { latitude := some (.finite false 2 0) }

end Tacview

namespace Tacview

/-- C2 (amended): splitting on the pipe in the coordinate and event
grammars is a plain split with no escape handling: a pipe preceded by a
backslash still opens a new field and the backslash stays in the earlier
field; concretely, in a bookmark event the text before an escaped pipe is
returned with its trailing backslash and everything after the pipe is cut
off. -/
theorem C2_pipe_not_escaped :
    (∀ a b : List Char, '|' ∉ a →
      splitOnChar '|' (a ++ '\\' :: '|' :: b) = (a ++ ['\\']) :: splitOnChar '|' b) ∧
    (∀ a b : List Char, '|' ∉ a →
      Event.from_str (("Event=Bookmark|".toList) ++ (a ++ '\\' :: '|' :: b)) =
        .ok (.bookmark (a ++ ['\\']))) := by
  have key : ∀ a b : List Char, '|' ∉ a →
      splitOnChar '|' (a ++ '\\' :: '|' :: b) = (a ++ ['\\']) :: splitOnChar '|' b := by
    intro a b h
    have hna : ('|' : Char) ∉ a ++ ['\\'] := by
      intro hm
      rcases List.mem_append.mp hm with hm | hm
      · exact h hm
      · simp at hm
    have hd := splitOnChar_append_delim '|' (a ++ ['\\']) b hna
    rw [List.append_assoc] at hd
    exact hd
  refine ⟨key, ?_⟩
  intro a b h
  have hna : ('|' : Char) ∉ a ++ ['\\'] := by
    intro hm
    rcases List.mem_append.mp hm with hm | hm
    · exact h hm
    · simp at hm
  have h0 : ("Event=Bookmark|".toList : List Char) = ("Event=Bookmark".toList) ++ ['|'] := by
    decide
  have h1 : ("Event=Bookmark|".toList : List Char) ++ (a ++ '\\' :: '|' :: b) =
      ("Event=Bookmark".toList) ++ '|' :: ((a ++ ['\\']) ++ '|' :: b) := by
    rw [h0]
    simp
  rw [h1]
  have h2 : splitOnChar '|' (("Event=Bookmark".toList) ++ '|' :: ((a ++ ['\\']) ++ '|' :: b)) =
      ("Event=Bookmark".toList) :: (a ++ ['\\']) :: splitOnChar '|' b := by
    rw [splitOnChar_append_delim _ _ _ (by decide), splitOnChar_append_delim _ _ _ hna]
  unfold Event.from_str
  rw [h2]
  simp

/-- C2 counterexample: in a bookmark event the field written a, backslash,
pipe, b decodes to the message a-backslash, not to the message with a
literal pipe that escape-aware splitting would produce. -/
theorem C2_counterexample :
    Event.from_str ("Event=Bookmark|a\\|b".toList) = .ok (.bookmark ("a\\".toList)) ∧
      ("a\\".toList : List Char) ≠ ("a|b".toList) := by
  constructor
  · rfl
  · decide

/-- C2 witness: the amended statement at a concrete one-character field on
each side of the escaped pipe. -/
theorem C2_witness :
    Event.from_str (("Event=Bookmark|".toList) ++ (("x".toList) ++ '\\' :: '|' :: ("y".toList))) =
      .ok (.bookmark (("x".toList) ++ ['\\'])) :=
  C2_pipe_not_escaped.2 ("x".toList) ("y".toList) (by decide)

/-- The decoded value of one coordinate field, as the specification states
it: an empty field is absent, a non-empty field is its parsed real. -/
def coordVal (f : List Char) : Option FloatVal :=
  if f = [] then none else parseF64 f

theorem parseCoordField_eq (f : List Char) (h : f ≠ [] → (parseF64 f).isSome) :
    parseCoordField f = .ok (coordVal f) := by
  unfold parseCoordField coordVal
  by_cases hf : f = []
  · simp [hf]
  · rw [if_neg hf, if_neg hf]
    obtain ⟨v, hv⟩ := Option.isSome_iff_exists.mp (h hf)
    rw [hv]

/-- C4: for pipe-split arity exactly 3, 5, 6 or 9 with every non-empty
field parsing as a real, coordinate decoding succeeds and assigns
positions by arity (3 to longitude, latitude, altitude; 5 additionally to
u and v; 6 to the attitude triple; 9 to all nine), with every empty field
absent and every non-empty field carrying its parsed value. -/
theorem C4_coords_arity :
    (∀ s f1 f2 f3 : List Char, splitOnChar '|' s = [f1, f2, f3] →
      (∀ f ∈ [f1, f2, f3], f ≠ [] → (parseF64 f).isSome) →
      Coords.from_str s =
        .ok { longitude := coordVal f1, latitude := coordVal f2, altitude := coordVal f3 }) ∧
    (∀ s f1 f2 f3 f4 f5 : List Char, splitOnChar '|' s = [f1, f2, f3, f4, f5] →
      (∀ f ∈ [f1, f2, f3, f4, f5], f ≠ [] → (parseF64 f).isSome) →
      Coords.from_str s =
        .ok { longitude := coordVal f1, latitude := coordVal f2, altitude := coordVal f3,
              u := coordVal f4, v := coordVal f5 }) ∧
    (∀ s f1 f2 f3 f4 f5 f6 : List Char, splitOnChar '|' s = [f1, f2, f3, f4, f5, f6] →
      (∀ f ∈ [f1, f2, f3, f4, f5, f6], f ≠ [] → (parseF64 f).isSome) →
      Coords.from_str s =
        .ok { longitude := coordVal f1, latitude := coordVal f2, altitude := coordVal f3,
              roll := coordVal f4, pitch := coordVal f5, yaw := coordVal f6 }) ∧
    (∀ s f1 f2 f3 f4 f5 f6 f7 f8 f9 : List Char,
      splitOnChar '|' s = [f1, f2, f3, f4, f5, f6, f7, f8, f9] →
      (∀ f ∈ [f1, f2, f3, f4, f5, f6, f7, f8, f9], f ≠ [] → (parseF64 f).isSome) →
      Coords.from_str s =
        .ok { longitude := coordVal f1, latitude := coordVal f2, altitude := coordVal f3,
              roll := coordVal f4, pitch := coordVal f5, yaw := coordVal f6,
              u := coordVal f7, v := coordVal f8, heading := coordVal f9 }) := by
  refine ⟨?_, ?_, ?_, ?_⟩
  · intro s f1 f2 f3 hs hp
    have h1 := parseCoordField_eq f1 (hp f1 (by simp))
    have h2 := parseCoordField_eq f2 (hp f2 (by simp))
    have h3 := parseCoordField_eq f3 (hp f3 (by simp))
    simp only [Coords.from_str, hs, h1, h2, h3]
  · intro s f1 f2 f3 f4 f5 hs hp
    have h1 := parseCoordField_eq f1 (hp f1 (by simp))
    have h2 := parseCoordField_eq f2 (hp f2 (by simp))
    have h3 := parseCoordField_eq f3 (hp f3 (by simp))
    have h4 := parseCoordField_eq f4 (hp f4 (by simp))
    have h5 := parseCoordField_eq f5 (hp f5 (by simp))
    simp only [Coords.from_str, hs, h1, h2, h3, h4, h5]
  · intro s f1 f2 f3 f4 f5 f6 hs hp
    have h1 := parseCoordField_eq f1 (hp f1 (by simp))
    have h2 := parseCoordField_eq f2 (hp f2 (by simp))
    have h3 := parseCoordField_eq f3 (hp f3 (by simp))
    have h4 := parseCoordField_eq f4 (hp f4 (by simp))
    have h5 := parseCoordField_eq f5 (hp f5 (by simp))
    have h6 := parseCoordField_eq f6 (hp f6 (by simp))
    simp only [Coords.from_str, hs, h1, h2, h3, h4, h5, h6]
  · intro s f1 f2 f3 f4 f5 f6 f7 f8 f9 hs hp
    have h1 := parseCoordField_eq f1 (hp f1 (by simp))
    have h2 := parseCoordField_eq f2 (hp f2 (by simp))
    have h3 := parseCoordField_eq f3 (hp f3 (by simp))
    have h4 := parseCoordField_eq f4 (hp f4 (by simp))
    have h5 := parseCoordField_eq f5 (hp f5 (by simp))
    have h6 := parseCoordField_eq f6 (hp f6 (by simp))
    have h7 := parseCoordField_eq f7 (hp f7 (by simp))
    have h8 := parseCoordField_eq f8 (hp f8 (by simp))
    have h9 := parseCoordField_eq f9 (hp f9 (by simp))
    simp only [Coords.from_str, hs, h1, h2, h3, h4, h5, h6, h7, h8, h9]

/-- C4 witness: arity-3 decoding at a concrete coordinate value. -/
theorem C4_witness :
    Coords.from_str ("12.3|45.6|789".toList) =
      .ok { longitude := coordVal ("12.3".toList), latitude := coordVal ("45.6".toList),
            altitude := coordVal ("789".toList) } :=
  C4_coords_arity.1 ("12.3|45.6|789".toList) ("12.3".toList) ("45.6".toList)
    ("789".toList) (by decide) (by decide)

theorem coords_err4 (s t1 t2 t3 t4 : List Char)
    (h : splitOnChar '|' s = [t1, t2, t3, t4]) :
    ∃ e, Coords.from_str s = .error e := by
  simp only [Coords.from_str, h]
  cases hp1 : parseCoordField t1 with
  | error e => exact ⟨e, rfl⟩
  | ok v1 =>
  cases hp2 : parseCoordField t2 with
  | error e => exact ⟨e, rfl⟩
  | ok v2 =>
  cases hp3 : parseCoordField t3 with
  | error e => exact ⟨e, rfl⟩
  | ok v3 =>
  cases hp4 : parseCoordField t4 with
  | error e => exact ⟨e, rfl⟩
  | ok v4 => exact ⟨.malformedCoords s, rfl⟩

theorem coords_err7 (s t1 t2 t3 t4 t5 t6 t7 : List Char)
    (h : splitOnChar '|' s = [t1, t2, t3, t4, t5, t6, t7]) :
    ∃ e, Coords.from_str s = .error e := by
  simp only [Coords.from_str, h]
  cases hp1 : parseCoordField t1 with
  | error e => exact ⟨e, rfl⟩
  | ok v1 =>
  cases hp2 : parseCoordField t2 with
  | error e => exact ⟨e, rfl⟩
  | ok v2 =>
  cases hp3 : parseCoordField t3 with
  | error e => exact ⟨e, rfl⟩
  | ok v3 =>
  cases hp4 : parseCoordField t4 with
  | error e => exact ⟨e, rfl⟩
  | ok v4 =>
  cases hp5 : parseCoordField t5 with
  | error e => exact ⟨e, rfl⟩
  | ok v5 =>
  cases hp6 : parseCoordField t6 with
  | error e => exact ⟨e, rfl⟩
  | ok v6 =>
  cases hp7 : parseCoordField t7 with
  | error e => exact ⟨e, rfl⟩
  | ok v7 => exact ⟨.malformedCoords s, rfl⟩

theorem coords_err8 (s t1 t2 t3 t4 t5 t6 t7 t8 : List Char)
    (h : splitOnChar '|' s = [t1, t2, t3, t4, t5, t6, t7, t8]) :
    ∃ e, Coords.from_str s = .error e := by
  simp only [Coords.from_str, h]
  cases hp1 : parseCoordField t1 with
  | error e => exact ⟨e, rfl⟩
  | ok v1 =>
  cases hp2 : parseCoordField t2 with
  | error e => exact ⟨e, rfl⟩
  | ok v2 =>
  cases hp3 : parseCoordField t3 with
  | error e => exact ⟨e, rfl⟩
  | ok v3 =>
  cases hp4 : parseCoordField t4 with
  | error e => exact ⟨e, rfl⟩
  | ok v4 =>
  cases hp5 : parseCoordField t5 with
  | error e => exact ⟨e, rfl⟩
  | ok v5 =>
  cases hp6 : parseCoordField t6 with
  | error e => exact ⟨e, rfl⟩
  | ok v6 =>
  cases hp7 : parseCoordField t7 with
  | error e => exact ⟨e, rfl⟩
  | ok v7 =>
  cases hp8 : parseCoordField t8 with
  | error e => exact ⟨e, rfl⟩
  | ok v8 => exact ⟨.malformedCoords s, rfl⟩

end Tacview

namespace Tacview

theorem length_eq_four_list {α : Type} (l : List α) (h : l.length = 4) :
    ∃ a b c d, l = [a, b, c, d] := by
  obtain ⟨a, l1, rfl⟩ := List.exists_of_length_succ l h
  simp only [List.length_cons, Nat.succ.injEq] at h
  obtain ⟨b, l2, rfl⟩ := List.exists_of_length_succ l1 h
  simp only [List.length_cons, Nat.succ.injEq] at h
  obtain ⟨c, l3, rfl⟩ := List.exists_of_length_succ l2 h
  simp only [List.length_cons, Nat.succ.injEq] at h
  obtain ⟨d, l4, rfl⟩ := List.exists_of_length_succ l3 h
  simp only [List.length_cons, Nat.succ.injEq] at h
  rw [List.length_eq_zero] at h
  exact ⟨a, b, c, d, by rw [h]⟩

theorem length_eq_seven_list {α : Type} (l : List α) (h : l.length = 7) :
    ∃ a b c d e f g, l = [a, b, c, d, e, f, g] := by
  obtain ⟨a, l1, rfl⟩ := List.exists_of_length_succ l h
  simp only [List.length_cons, Nat.succ.injEq] at h
  obtain ⟨b, l2, rfl⟩ := List.exists_of_length_succ l1 h
  simp only [List.length_cons, Nat.succ.injEq] at h
  obtain ⟨c, l3, rfl⟩ := List.exists_of_length_succ l2 h
  simp only [List.length_cons, Nat.succ.injEq] at h
  obtain ⟨d, e', f, g, hd4⟩ := length_eq_four_list l3 h
  exact ⟨a, b, c, d, e', f, g, by rw [hd4]⟩

theorem length_eq_eight_list {α : Type} (l : List α) (h : l.length = 8) :
    ∃ a b c d e f g i, l = [a, b, c, d, e, f, g, i] := by
  obtain ⟨a, l1, rfl⟩ := List.exists_of_length_succ l h
  simp only [List.length_cons, Nat.succ.injEq] at h
  obtain ⟨b, c, d, e', f, g, i, hd⟩ := length_eq_seven_list l1 h
  exact ⟨a, b, c, d, e', f, g, i, by rw [hd]⟩

/-- C3 (amended): a T= coordinate value whose pipe-split arity is 4, 7 or 8
never decodes successfully: decoding returns an error (a parse-float error
on a malformed leading field, or the malformed-coordinates error when the
iterator runs out where the 5, 9 or 9 schema demands another field). -/
theorem C3_coords_arity_478 (s : List Char)
    (h : (splitOnChar '|' s).length = 4 ∨ (splitOnChar '|' s).length = 7 ∨
      (splitOnChar '|' s).length = 8) :
    ∃ e, Coords.from_str s = .error e := by
  rcases h with h | h | h
  · obtain ⟨a, b, c, d, hl⟩ := length_eq_four_list _ h
    exact coords_err4 s a b c d hl
  · obtain ⟨a, b, c, d, e', f, g, hl⟩ := length_eq_seven_list _ h
    exact coords_err7 s a b c d e' f g hl
  · obtain ⟨a, b, c, d, e', f, g, i, hl⟩ := length_eq_eight_list _ h
    exact coords_err8 s a b c d e' f g i hl

/-- C3 counterexample: the arity-4 value 1 pipe 2 pipe 3 pipe 4, whose
fields all parse as reals, is rejected with the malformed-coordinates
error, so decoding does not succeed as the claim states. -/
theorem C3_counterexample :
    Coords.from_str ("1|2|3|4".toList) = .error (.malformedCoords ("1|2|3|4".toList)) := by
  rfl

/-- C3 witness: the amended statement at the concrete arity-4 value. -/
theorem C3_witness : ∃ e, Coords.from_str ("1|2|3|4".toList) = .error e :=
  C3_coords_arity_478 ("1|2|3|4".toList) (by decide)

/-- C6 (amended): the line assembler does not skip blank physical lines:
when the accumulated logical line is empty and the next physical line is
empty after stripping its terminator, the loop stops and hands the empty
logical line to the record parser, which fails with the end-of-line error;
the blank line is consumed and nothing further is read. -/
theorem C6_blank_line_errors (rest : List Char) :
    nextLoop ('\n' :: rest) [] = (.error .acmiReaderEol, rest) := by
  rw [nextLoop]
  simp [readLine, stripNewline, startsWith, stripPre?]
  rfl

/-- C6 counterexample: a stream whose next physical line is blank makes
next return the end-of-line error with the following line still unread,
instead of skipping the blank line and decoding the record after it. -/
theorem C6_counterexample :
    nextLoop ("\n0,Title=T\n".toList) [] =
      (.error .acmiReaderEol, ("0,Title=T\n".toList)) := by
  rw [nextLoop]
  simp [readLine, stripNewline, startsWith, stripPre?]
  rfl

end Tacview


namespace Tacview

theorem hexAcc_none (ds : List Char) : ds.foldl hexAcc none = none := by
  induction ds with
  | nil => rfl
  | cons d t ih => exact ih

theorem hexVal_zero (c : Char) (h : hexVal? c = some 0) : c = '0' := by
  unfold hexVal? at h
  have hn : c.toNat = 48 := by
    split at h
    · injection h with hv
      omega
    · split at h
      · injection h with hv
        omega
      · split at h
        · injection h with hv
          omega
        · exact Option.noConfusion h
  have hofn := Char.ofNat_toNat c
  rw [hn] at hofn
  exact hofn.symm

theorem hexFold_zero (ds : List Char) : ∀ a, ds.foldl hexAcc (some a) = some 0 →
    a = 0 ∧ ∀ c ∈ ds, c = '0' := by
  induction ds with
  | nil =>
    intro a h
    simp only [List.foldl_nil, Option.some.injEq] at h
    exact ⟨h, by simp⟩
  | cons d t ih =>
    intro a h
    rw [List.foldl_cons] at h
    cases hv : hexVal? d with
    | none =>
      rw [show hexAcc (some a) d = none by simp [hexAcc, hv]] at h
      rw [hexAcc_none] at h
      exact Option.noConfusion h
    | some n =>
      rw [show hexAcc (some a) d = some (a * 16 + n) by simp [hexAcc, hv]] at h
      obtain ⟨hz, hall⟩ := ih (a * 16 + n) h
      have ha : a = 0 ∧ n = 0 := by omega
      refine ⟨ha.1, ?_⟩
      intro c hc
      rcases List.mem_cons.mp hc with rfl | hc
      · exact hexVal_zero c (ha.2 ▸ hv)
      · exact hall c hc

theorem hexValue_zero (digits : List Char) (h : hexValue digits = .ok 0) :
    ∀ c ∈ digits, c = '0' := by
  cases digits with
  | nil => exact Except.noConfusion h
  | cons d t =>
    simp only [hexValue] at h
    cases hf : (d :: t).foldl hexAcc (some 0) with
    | none =>
      rw [hf] at h
      exact Except.noConfusion h
    | some v =>
      rw [hf] at h
      by_cases hlt : v < 2 ^ 64
      · simp only [if_pos hlt] at h
        injection h with hv
        subst hv
        exact (hexFold_zero (d :: t) 0 hf).2
      · simp only [if_neg hlt] at h
        exact Except.noConfusion h

theorem parse_object_id_zero (s : List Char) (h : parse_object_id s = .ok 0) :
    ∀ c ∈ s, c = '0' ∨ c = '+' := by
  cases s with
  | nil => exact Except.noConfusion h
  | cons c rest =>
    simp only [parse_object_id] at h
    by_cases hc : c = '+'
    · rw [if_pos hc] at h
      have hall := hexValue_zero rest h
      intro x hx
      rcases List.mem_cons.mp hx with rfl | hx
      · exact Or.inr hc
      · exact Or.inl (hall x hx)
    · rw [if_neg hc] at h
      have hall := hexValue_zero (c :: rest) h
      intro x hx
      exact Or.inl (hall x hx)

end Tacview

namespace Tacview

/-- C1 (amended): every line classified as an object update has a head (the
text before the first comma) different from the single character zero, and
its decoded id is the hex value of that head; the id can still be zero, but
only when every character of the head is a zero digit or a plus sign (for
example the head 00), so a nonzero hex digit in the head guarantees a
nonzero id. -/
theorem C1_update_id (s : List Char) (id : Nat) (props : List ObjectProperty)
    (h : Record.from_str s = .ok (.update id props)) :
    ∃ head rest, splitOnceChar ',' s = some (head, rest) ∧ head ≠ ("0".toList) ∧
      (id = 0 → ∀ c ∈ head, c = '0' ∨ c = '+') := by
  unfold Record.from_str at h
  cases hm : stripPre? ['-'] s with
  | some line =>
    simp only [hm] at h
    cases hp : parse_object_id line with
    | error e => rw [hp] at h; simp [Except.map] at h
    | ok v => rw [hp] at h; simp [Except.map] at h
  | none =>
    simp only [hm] at h
    cases hh : stripPre? ['#'] s with
    | some line =>
      simp only [hh] at h
      cases hp : parseF64E line with
      | error e => rw [hp] at h; simp [Except.map] at h
      | ok v => rw [hp] at h; simp [Except.map] at h
    | none =>
      simp only [hh] at h
      cases hsc : splitOnceChar ',' s with
      | none =>
        simp only [hsc] at h
        exact Except.noConfusion h
      | some p =>
        obtain ⟨ph, pt⟩ := p
        simp only [hsc] at h
        by_cases hid : ph = ("0".toList)
        · rw [if_pos hid] at h
          by_cases hev : startsWith ("Event=".toList) pt
          · rw [if_pos hev] at h
            cases he : Event.from_str pt with
            | error e => rw [he] at h; simp [Except.map] at h
            | ok ev => rw [he] at h; simp [Except.map] at h
          · rw [if_neg hev] at h
            cases hg : (parse_comma pt).mapM GlobalProperty.from_str with
            | error e => rw [hg] at h; simp [Except.map] at h
            | ok l => rw [hg] at h; simp [Except.map] at h
        · rw [if_neg hid] at h
          cases hpo : parse_object_id ph with
          | error e => rw [hpo] at h; simp at h
          | ok oid =>
            rw [hpo] at h
            cases hmm : (parse_comma pt).mapM ObjectProperty.from_str with
            | error e => rw [hmm] at h; simp [Except.map] at h
            | ok l =>
              rw [hmm] at h
              simp only [Except.map, Except.ok.injEq] at h
              have hoid : oid = id := (Record.update.inj h).1
              refine ⟨ph, pt, rfl, hid, ?_⟩
              intro h0
              exact parse_object_id_zero ph (by rw [hpo, hoid, h0])

/-- C1 counterexample: the line with head 00 is classified as an update
(the head differs from the string 0) yet decodes to an update record whose
object id equals zero, refuting the claim that no input line can produce an
update with id zero. -/
theorem C1_counterexample :
    Record.from_str ("00,Name=x".toList) = .ok (.update 0 [.name ("x".toList)]) := by
  rfl

/-- C1 witness: the amended statement applied to a concrete update line
with the nonzero id A1. -/
theorem C1_witness :
    ∃ head rest, splitOnceChar ',' ("A1,Name=x".toList) = some (head, rest) ∧
      head ≠ ("0".toList) ∧ (161 = 0 → ∀ c ∈ head, c = '0' ∨ c = '+') :=
  C1_update_id ("A1,Name=x".toList) 161 [.name ("x".toList)] (by rfl)

end Tacview


namespace Tacview

theorem key_unique (k : List Char) : ∀ (k' v v' : List Char), '=' ∉ k → '=' ∉ k' →
    k ++ '=' :: v = k' ++ '=' :: v' → k = k' ∧ v = v' := by
  induction k with
  | nil =>
    intro k' v v' _ hk' h
    cases k' with
    | nil =>
      simp only [List.nil_append, List.cons.injEq] at h
      exact ⟨rfl, h.2⟩
    | cons c' ks' =>
      simp only [List.nil_append, List.cons_append, List.cons.injEq] at h
      exact absurd (h.1 ▸ List.mem_cons_self c' ks') (fun hm => hk' (by simpa [← h.1] using hm))
  | cons c ks ih =>
    intro k' v v' hk hk' h
    cases k' with
    | nil =>
      simp only [List.cons_append, List.nil_append, List.cons.injEq] at h
      exact absurd (h.1 ▸ List.mem_cons_self c ks) (fun hm => hk (by simpa [h.1] using hm))
    | cons c' ks' =>
      simp only [List.cons_append, List.cons.injEq] at h
      obtain ⟨hc, hrest⟩ := h
      obtain ⟨hks, hv⟩ := ih ks' v v' (fun hm => hk (List.mem_cons_of_mem c hm))
        (fun hm => hk' (List.mem_cons_of_mem c' hm)) hrest
      exact ⟨by rw [hc, hks], hv⟩

theorem stripPre_key_none (key k v : List Char) (hkey : '=' ∉ key) (hk : '=' ∉ k)
    (hne : k ≠ key) : stripPre? (key ++ ['=']) (k ++ '=' :: v) = none := by
  cases hsp : stripPre? (key ++ ['=']) (k ++ '=' :: v) with
  | none => rfl
  | some r =>
    have heq := (stripPre?_eq_some _ _ _).mp hsp
    rw [List.append_assoc, List.singleton_append] at heq
    obtain ⟨hk', _⟩ := key_unique k key v r hk hkey heq
    exact absurd hk' hne

theorem dispatchKeyEq_unknown {A : Type}
    (bs : List (List Char × (List Char → Except Error A)))
    (ft : List Char → Except Error A) (k v : List Char)
    (hk : '=' ∉ k) (hkeys : ∀ key ∈ bs.map Prod.fst, '=' ∉ key)
    (hmem : k ∉ bs.map Prod.fst) :
    dispatchKeyEq bs ft (k ++ '=' :: v) = ft (k ++ '=' :: v) := by
  induction bs with
  | nil => rfl
  | cons b rest ih =>
    obtain ⟨key, dec⟩ := b
    have hkey : '=' ∉ key :=
      hkeys key (by rw [List.map_cons]; exact List.mem_cons_self _ _)
    have hne : k ≠ key := fun hkk =>
      hmem (by rw [List.map_cons, hkk]; exact List.mem_cons_self _ _)
    unfold dispatchKeyEq
    rw [stripPre_key_none key k v hkey hk hne]
    exact ih (fun key2 h2 => hkeys key2 (by rw [List.map_cons]; exact List.mem_cons_of_mem _ h2))
      (fun h2 => hmem (by rw [List.map_cons]; exact List.mem_cons_of_mem _ h2))

theorem objectKeysNoEq : ∀ key ∈ objectKnownKeys, ('=' : Char) ∉ key := by decide

theorem globalKeysNoEq : ∀ key ∈ globalKnownKeys, ('=' : Char) ∉ key := by decide

end Tacview

namespace Tacview

/-- C8: an object-property or global-property field whose key (the text
before the first equals sign) is outside the respective known key set never
fails to decode: the result is the unknown variant carrying the key and
everything after the first equals sign. -/
theorem C8_unknown_keys :
    (∀ s k v : List Char, splitOnceChar '=' s = some (k, v) → k ∉ objectKnownKeys →
      ObjectProperty.from_str s = .ok (.unknown k v)) ∧
    (∀ s k v : List Char, splitOnceChar '=' s = some (k, v) → k ∉ globalKnownKeys →
      GlobalProperty.from_str s = .ok (.unknown k v)) := by
  constructor
  · intro s k v hsp hmem
    obtain ⟨hs, hk⟩ := splitOnceChar_eq_some '=' s k v hsp
    subst hs
    unfold ObjectProperty.from_str
    rw [dispatchKeyEq_unknown ObjectProperty.branches _ k v hk objectKeysNoEq hmem]
    rw [splitOnceChar_append '=' k v hk]
  · intro s k v hsp hmem
    obtain ⟨hs, hk⟩ := splitOnceChar_eq_some '=' s k v hsp
    subst hs
    unfold GlobalProperty.from_str
    rw [dispatchKeyEq_unknown GlobalProperty.branches _ k v hk globalKeysNoEq hmem]
    rw [splitOnceChar_append '=' k v hk]

/-- C8 witness: decoding the unknown object-property key Foo. -/
theorem C8_witness :
    ObjectProperty.from_str ("Foo=bar".toList) =
      .ok (.unknown ("Foo".toList) ("bar".toList)) :=
  C8_unknown_keys.1 ("Foo=bar".toList) ("Foo".toList) ("bar".toList)
    (by decide) (by decide)

end Tacview


namespace Tacview

theorem readLine_append (l rest : List Char) (h : '\n' ∉ l) :
    readLine (l ++ '\n' :: rest) = (l ++ ['\n'], rest) := by
  induction l with
  | nil => simp [readLine]
  | cons c t ih =>
    have hc : c ≠ '\n' := fun hcd => h (hcd ▸ List.mem_cons_self c t)
    have ht : '\n' ∉ t := fun hm => h (List.mem_cons_of_mem c hm)
    simp [readLine, hc, ih ht]

theorem readLine_no_newline (s : List Char) (h : '\n' ∉ s) :
    readLine s = (s, []) := by
  induction s with
  | nil => rfl
  | cons c t ih =>
    have hc : c ≠ '\n' := fun hcd => h (hcd ▸ List.mem_cons_self c t)
    have ht : '\n' ∉ t := fun hm => h (List.mem_cons_of_mem c hm)
    simp only [readLine, if_neg hc, ih ht]

/-- C10: the header parser panics (modelled as none) exactly in the
situation the claim describes: when the first line is the exact FileType
line and the second read runs to end of stream with text beginning
FileVersion=2.2 but no newline, the strip_suffix unwrap fails; and whenever
the second read_line call returns a newline-terminated line, parse_header
never panics. -/
theorem C10_header_panic :
    (∀ v : List Char, startsWith ("FileVersion=2.2".toList) v → '\n' ∉ v →
      parse_header (("FileType=text/acmi/tacview\n".toList) ++ v) = none) ∧
    (∀ s : List Char, (readLine (readLine s).2).1.getLast? = some '\n' →
      parse_header s ≠ none) := by
  constructor
  · intro v hsw hnv

    have hsplitlit : (("FileType=text/acmi/tacview\n".toList) : List Char) ++ v =
        ("FileType=text/acmi/tacview".toList) ++ '\n' :: v := by
      rw [show (("FileType=text/acmi/tacview\n".toList) : List Char) =
        ("FileType=text/acmi/tacview".toList) ++ ['\n'] from by decide]
      simp
    have hr1 : readLine ((("FileType=text/acmi/tacview\n".toList) : List Char) ++ v) =
        (("FileType=text/acmi/tacview\n".toList), v) := by
      rw [hsplitlit, readLine_append _ _ (by decide)]
      rw [show ((("FileType=text/acmi/tacview".toList) : List Char) ++ ['\n']) =
        ("FileType=text/acmi/tacview\n".toList) from by decide]
    obtain ⟨tail, htail⟩ := Option.isSome_iff_exists.mp hsw
    have hv : v = ("FileVersion=2.2".toList) ++ tail := (stripPre?_eq_some _ _ _).mp htail
    have hpre12 : stripPre? ("FileVersion=".toList) v = some (("2.2".toList) ++ tail) := by
      rw [stripPre?_eq_some, hv, ← List.append_assoc]
      rw [show ((("FileVersion=".toList) : List Char) ++ ("2.2".toList)) =
        ("FileVersion=2.2".toList) from by decide]
    have hnr : ('\n' : Char) ∉ ("2.2".toList) ++ tail := by
      intro hm
      apply hnv
      rw [hv]
      rw [show (("FileVersion=2.2".toList) : List Char) =
        ("FileVersion=".toList) ++ ("2.2".toList) from by decide, List.append_assoc]
      exact List.mem_append_right _ hm
    have hss : stripSuffixChar? '\n' (("2.2".toList) ++ tail) = none := by
      unfold stripSuffixChar?
      rw [if_neg]
      intro hgl
      exact hnr (List.mem_of_mem_getLast? hgl)
    simp only [parse_header, hr1,
      show (stripPre? ("FileType=".toList) ("FileType=text/acmi/tacview\n".toList)) =
        some ("text/acmi/tacview\n".toList) from by decide,
      show (stripSuffixChar? '\n' ("text/acmi/tacview\n".toList)) =
        some ("text/acmi/tacview".toList) from by decide,
      readLine_no_newline v hnv, hsw, hpre12, hss]
    simp
  · intro s hterm

    simp only [parse_header]
    by_cases hb1 : (readLine s).1 = ("FileType=text/acmi/tacview\n".toList)
    · rw [hb1]
      simp only [ne_eq, not_true_eq_false, if_false,
        show (stripPre? ("FileType=".toList) ("FileType=text/acmi/tacview\n".toList)) =
          some ("text/acmi/tacview\n".toList) from by decide,
        show (stripSuffixChar? '\n' ("text/acmi/tacview\n".toList)) =
          some ("text/acmi/tacview".toList) from by decide]
      by_cases hsw : startsWith ("FileVersion=2.2".toList) (readLine (readLine s).2).1
      · obtain ⟨tail, htail⟩ := Option.isSome_iff_exists.mp hsw
        have hv : (readLine (readLine s).2).1 = ("FileVersion=2.2".toList) ++ tail :=
          (stripPre?_eq_some _ _ _).mp htail
        have hpre12 : stripPre? ("FileVersion=".toList) (readLine (readLine s).2).1 =
            some (("2.2".toList) ++ tail) := by
          rw [stripPre?_eq_some, hv, ← List.append_assoc]
          rw [show ((("FileVersion=".toList) : List Char) ++ ("2.2".toList)) =
            ("FileVersion=2.2".toList) from by decide]
        have hgl : (("2.2".toList) ++ tail).getLast? = some '\n' := by
          have h22 : (readLine (readLine s).2).1 =
              ("FileVersion=".toList) ++ (("2.2".toList) ++ tail) := by
            rw [hv, ← List.append_assoc]
            rw [show ((("FileVersion=".toList) : List Char) ++ ("2.2".toList)) =
              ("FileVersion=2.2".toList) from by decide]
          rw [h22, List.getLast?_append] at hterm
          cases hgl2 : (("2.2".toList) ++ tail).getLast? with
          | none =>
            rw [hgl2] at hterm
            exact absurd hterm (by decide)
          | some a =>
            rw [hgl2] at hterm
            have haeq : some a = some '\n' := by
              rw [show Option.or (some a) ((("FileVersion=".toList) : List Char).getLast?) =
                some a from rfl] at hterm
              exact hterm
            exact haeq
        have hss : stripSuffixChar? '\n' (("2.2".toList) ++ tail) =
            some ((("2.2".toList) ++ tail).dropLast) := by
          unfold stripSuffixChar?
          rw [if_pos hgl]
        simp only [hsw, hpre12, hss, not_true_eq_false, if_false]
        simp
      · simp only [hsw]
        simp
    · rw [if_pos]
      · simp
      · exact hb1

/-- C10 witness: the parser panics on the stream whose second line is
exactly FileVersion=2.2 with no terminator, and the panic is real at this
input. -/
theorem C10_witness :
    parse_header (("FileType=text/acmi/tacview\n".toList) ++ ("FileVersion=2.2".toList)) =
      none :=
  C10_header_panic.1 ("FileVersion=2.2".toList) (by decide) (by decide)

end Tacview
